import Mathlib

/-!
Verification development for the geonode remote-service processors
`geonode/services/serviceprocessors/sos.py` and
`geonode/services/serviceprocessors/sta.py`.

The Python runtime is shallowly embedded: parsed JSON/Python values are
`PyVal`, Python strings are lists of code points (`Str`), fallible Python
code returns `Except Err`, and the external HTTP transport and external
catalog are explicit parameters (a fetch function and a catalog state).
JSON numbers are modelled as integers, the range every theorem exercises.
-/

namespace GeonodeSvc

/-- A Python string, modelled as its list of code points. -/
abbrev Str := List Char

/-- Code points of a Lean string literal, for stating theorems. -/
def chars (s : String) : Str := s.data

/-- The apostrophe code point (kept out of literals). -/
def sq : Char := Char.ofNat 39

/-- A parsed-JSON / plain Python value. `null` doubles as Python None. -/
inductive PyVal where
  | null
  | int (n : Int)
  | str (s : Str)
  | list (xs : List PyVal)
  | dict (fields : List (Str × PyVal))

mutual

/-- Structural (Python ==) equality on values, written by hand because
the nested occurrences of `List` defeat the automatic derivation. -/
def PyVal.beq : PyVal → PyVal → Bool
  | .null, .null => true
  | .int m, .int n => m == n
  | .str s, .str t => s == t
  | .list xs, .list ys => PyVal.beqL xs ys
  | .dict fs, .dict gs => PyVal.beqD fs gs
  | _, _ => false

def PyVal.beqL : List PyVal → List PyVal → Bool
  | [], [] => true
  | x :: xs, y :: ys => PyVal.beq x y && PyVal.beqL xs ys
  | _, _ => false

def PyVal.beqD : List (Str × PyVal) → List (Str × PyVal) → Bool
  | [], [] => true
  | (k, v) :: fs, (l, w) :: gs => k == l && PyVal.beq v w && PyVal.beqD fs gs
  | _, _ => false

end

mutual

theorem PyVal.eq_of_beq : ∀ a b : PyVal, PyVal.beq a b = true → a = b
  | .null, .null, _ => rfl
  | .null, .int _, h => nomatch h
  | .null, .str _, h => nomatch h
  | .null, .list _, h => nomatch h
  | .null, .dict _, h => nomatch h
  | .int _, .null, h => nomatch h
  | .int m, .int n, h => by
    have h1 : m = n := by simpa [PyVal.beq] using h
    rw [h1]
  | .int _, .str _, h => nomatch h
  | .int _, .list _, h => nomatch h
  | .int _, .dict _, h => nomatch h
  | .str _, .null, h => nomatch h
  | .str _, .int _, h => nomatch h
  | .str s, .str t, h => by
    have h1 : s = t := by simpa [PyVal.beq] using h
    rw [h1]
  | .str _, .list _, h => nomatch h
  | .str _, .dict _, h => nomatch h
  | .list _, .null, h => nomatch h
  | .list _, .int _, h => nomatch h
  | .list _, .str _, h => nomatch h
  | .list xs, .list ys, h => by
    rw [PyVal.eqL_of_beqL xs ys (by simpa [PyVal.beq] using h)]
  | .list _, .dict _, h => nomatch h
  | .dict _, .null, h => nomatch h
  | .dict _, .int _, h => nomatch h
  | .dict _, .str _, h => nomatch h
  | .dict _, .list _, h => nomatch h
  | .dict fs, .dict gs, h => by
    rw [PyVal.eqD_of_beqD fs gs (by simpa [PyVal.beq] using h)]

theorem PyVal.eqL_of_beqL : ∀ xs ys : List PyVal, PyVal.beqL xs ys = true → xs = ys
  | [], [], _ => rfl
  | [], _ :: _, h => nomatch h
  | _ :: _, [], h => nomatch h
  | x :: xs, y :: ys, h => by
    have h1 : PyVal.beq x y = true ∧ PyVal.beqL xs ys = true := by
      simpa [PyVal.beqL] using h
    rw [PyVal.eq_of_beq x y h1.1, PyVal.eqL_of_beqL xs ys h1.2]

theorem PyVal.eqD_of_beqD : ∀ fs gs : List (Str × PyVal), PyVal.beqD fs gs = true → fs = gs
  | [], [], _ => rfl
  | [], _ :: _, h => nomatch h
  | _ :: _, [], h => nomatch h
  | (k, v) :: fs, (l, w) :: gs, h => by
    have h1 : (k = l ∧ PyVal.beq v w = true) ∧ PyVal.beqD fs gs = true := by
      simpa [PyVal.beqD, and_assoc] using h
    rw [h1.1.1, PyVal.eq_of_beq v w h1.1.2, PyVal.eqD_of_beqD fs gs h1.2]

end

mutual

theorem PyVal.beq_refl : ∀ a : PyVal, PyVal.beq a a = true
  | .null => rfl
  | .int m => by simp [PyVal.beq]
  | .str s => by simp [PyVal.beq]
  | .list xs => by simpa [PyVal.beq] using PyVal.beqL_refl xs
  | .dict fs => by simpa [PyVal.beq] using PyVal.beqD_refl fs

theorem PyVal.beqL_refl : ∀ xs : List PyVal, PyVal.beqL xs xs = true
  | [] => rfl
  | x :: xs => by simp [PyVal.beqL, PyVal.beq_refl x, PyVal.beqL_refl xs]

theorem PyVal.beqD_refl : ∀ fs : List (Str × PyVal), PyVal.beqD fs fs = true
  | [] => rfl
  | (k, v) :: fs => by simp [PyVal.beqD, PyVal.beq_refl v, PyVal.beqD_refl fs]

end

instance : DecidableEq PyVal := fun a b =>
  if h : PyVal.beq a b = true then isTrue (PyVal.eq_of_beq a b h)
  else isFalse (fun hh => h (hh ▸ PyVal.beq_refl a))

instance {ε α : Type} [DecidableEq ε] [DecidableEq α] : DecidableEq (Except ε α) :=
  fun a b =>
    match a, b with
    | .ok x, .ok y =>
      if h : x = y then isTrue (by rw [h]) else
        isFalse (by intro hh; injection hh with h1; exact h h1)
    | .error e, .error f =>
      if h : e = f then isTrue (by rw [h]) else
        isFalse (by intro hh; injection hh with h1; exact h h1)
    | .ok _, .error _ => isFalse fun h => nomatch h
    | .error _, .ok _ => isFalse fun h => nomatch h

/-- Python exceptions raised by the embedded code. The two RuntimeError
raises of the sources are kept structured: `invalidBBox` models
RuntimeError on a bounding box shorter than 4 entries and
`alreadyHarvested` models the duplicate-harvest RuntimeError whose
message names the resource id. `unsupportedVersion` models the factory
NotImplementedError whose message names the requested version and the
version strings listed in the message text. -/
inductive Err where
  | keyError (key : Str)
  | attributeError (attr : Str)
  | typeError
  | indexError
  | valueError
  | fetchError (url : Str)
  | invalidBBox (bbox : PyVal)
  | alreadyHarvested (rid : Str)
  | unsupportedVersion (requested : Str) (named : List Str)
  | loopFuel
deriving DecidableEq

/-- First match of a key in a Python dict (parsed JSON keys are unique). -/
def pyLookup (key : Str) : List (Str × PyVal) → Option PyVal
  | [] => none
  | (k, v) :: rest => if k = key then some v else pyLookup key rest

/-- Python `obj[key]` with a string key: dict lookup raising KeyError when
the key is missing and TypeError on non-dict values. -/
def pyGetItem (v : PyVal) (key : Str) : Except Err PyVal :=
  match v with
  | .dict fs =>
    match pyLookup key fs with
    | some x => .ok x
    | none => .error (.keyError key)
  | _ => .error .typeError

/-- Attribute-style access on a geojson-decoded object: key lookup on the
underlying dict, AttributeError otherwise. -/
def pyAttr (v : PyVal) (attr : Str) : Except Err PyVal :=
  match v with
  | .dict fs =>
    match pyLookup attr fs with
    | some x => .ok x
    | none => .error (.attributeError attr)
  | _ => .error (.attributeError attr)

/-- Python iteration: lists yield elements, strings yield one-character
strings, dicts yield their keys; anything else raises TypeError. -/
def iterObj : PyVal → Except Err (List PyVal)
  | .list xs => .ok xs
  | .str s => .ok (s.map fun c => .str [c])
  | .dict fs => .ok (fs.map fun p => .str p.1)
  | _ => .error .typeError

/-- Python `obj[i]` with a nonnegative integer index. -/
def pyIndex (v : PyVal) (i : Nat) : Except Err PyVal :=
  match v with
  | .list xs =>
    match xs.get? i with
    | some x => .ok x
    | none => .error .indexError
  | .str s =>
    match s.get? i with
    | some c => .ok (.str [c])
    | none => .error .indexError
  | _ => .error .typeError

/-- Python `len(obj)`. -/
def pyLen : PyVal → Except Err Nat
  | .list xs => .ok xs.length
  | .str s => .ok s.length
  | .dict fs => .ok fs.length
  | _ => .error .typeError

/-- Python `a < b`: defined for two ints or two strings (lexicographic),
TypeError on mixed or unordered operands. -/
def strLtB : Str → Str → Bool
  | [], [] => false
  | [], _ :: _ => true
  | _ :: _, [] => false
  | a :: as, b :: bs => if a < b then true else if b < a then false else strLtB as bs

def pyLt (a b : PyVal) : Except Err Bool :=
  match a, b with
  | .int m, .int n => .ok (decide (m < n))
  | .str s, .str t => .ok (strLtB s t)
  | _, _ => .error .typeError

/-- Python `min(seq)` on a nonempty sequence: keeps the current minimum,
replacing it whenever a later element compares strictly smaller. -/
def pyMinFold (acc : PyVal) : List PyVal → Except Err PyVal
  | [] => .ok acc
  | x :: xs => do
    let lt ← pyLt x acc
    pyMinFold (if lt then x else acc) xs

def pyMinList : List PyVal → Except Err PyVal
  | [] => .error .valueError
  | x :: xs => pyMinFold x xs

/-- Python `max(seq)` on a nonempty sequence. -/
def pyMaxFold (acc : PyVal) : List PyVal → Except Err PyVal
  | [] => .ok acc
  | x :: xs => do
    let gt ← pyLt acc x
    pyMaxFold (if gt then x else acc) xs

def pyMaxList : List PyVal → Except Err PyVal
  | [] => .error .valueError
  | x :: xs => pyMaxFold x xs

/-- Python `str(v)` for the scalar values the sources format into
f-strings; composite values never reach a formatting site in a theorem. -/
def pyToStr : PyVal → Str
  | .str s => s
  | .int n => (toString n).data
  | .null => chars "None"
  | .list _ => chars "<list>"
  | .dict _ => chars "<dict>"

/-- Python `a + b` for a string and a value: concatenation when the value
is a string, TypeError otherwise. -/
def pyStrAdd (a : Str) (b : PyVal) : Except Err Str :=
  match b with
  | .str s => .ok (a ++ s)
  | _ => .error .typeError

/-- A CPython set built by successive `update` calls, modelled as a
duplicate-free list in first-insertion order (CPython iteration order of
a set is unspecified; downstream code relies only on membership and
cardinality). -/
def setUpdate {α : Type} [DecidableEq α] (s : List α) (xs : List α) : List α :=
  xs.foldl (fun acc x => if x ∈ acc then acc else acc ++ [x]) s

/-! ## CPython `urllib.parse`, embedded

The URL helpers the sources call (`unquote`, `urlparse`, `parse_qsl`,
`urlencode`, `urlunparse`, `quote`) are embedded at the code-point level,
following the CPython 3.8 implementations. Percent-decoding is modelled
per code point (exact for ASCII escape sequences, the only ones the
sources and the theorems exercise); percent-encoding emits the UTF-8
bytes of the code point exactly as CPython does. -/

def hexVal (c : Char) : Option Nat :=
  if c.isDigit then some (c.toNat - 48)
  else if 65 ≤ c.toNat ∧ c.toNat ≤ 70 then some (c.toNat - 55)
  else if 97 ≤ c.toNat ∧ c.toNat ≤ 102 then some (c.toNat - 87)
  else none

/-- `urllib.parse.unquote`, one left-to-right pass replacing each percent
escape by the character with the decoded code. -/
def unquoteL : Str → Str
  | [] => []
  | '%' :: a :: b :: rest =>
    match hexVal a, hexVal b with
    | some ha, some hb => Char.ofNat (16 * ha + hb) :: unquoteL rest
    | _, _ => '%' :: unquoteL (a :: b :: rest)
  | c :: rest => c :: unquoteL rest

/-- The characters `urllib.parse.quote` never encodes (safe set empty). -/
def alwaysSafeChar (c : Char) : Bool :=
  c.isAlphanum || c = '_' || c = '.' || c = '-' || c = '~'

/-- UTF-8 bytes of a code point, as numbers. -/
def utf8Bytes (n : Nat) : List Nat :=
  if n < 128 then [n]
  else if n < 2048 then [192 + n / 64, 128 + n % 64]
  else if n < 65536 then [224 + n / 4096, 128 + (n / 64) % 64, 128 + n % 64]
  else [240 + n / 262144, 128 + (n / 4096) % 64, 128 + (n / 64) % 64, 128 + n % 64]

/-- Uppercase hex digit, as CPython percent-encoding emits (totalized
outside the used domain 0..15). -/
def hexDigitU (n : Nat) : Char :=
  if n < 10 then Char.ofNat (48 + n)
  else if n < 16 then Char.ofNat (55 + n)
  else '0'

def pctEncodeChar (c : Char) : Str :=
  ((utf8Bytes c.toNat).map (fun b => ['%', hexDigitU (b / 16), hexDigitU (b % 16)])).flatten

/-- `urllib.parse.quote(s, safe=...)` with the safe set given as a
predicate over single characters. -/
def quoteCore (safe : Char → Bool) : Str → Str
  | [] => []
  | c :: rest =>
    (if safe c || alwaysSafeChar c then [c] else pctEncodeChar c) ++ quoteCore safe rest

/-- `urllib.parse.quote(s, safe=[])` as the STA proxification calls it. -/
def pyQuoteEmptySafe (s : Str) : Str := quoteCore (fun _ => false) s

/-- `urllib.parse.quote_plus(s)` with the default empty safe set, the
encoder `urlencode` applies to every key and value. -/
def quotePlus : Str → Str
  | [] => []
  | c :: rest =>
    (if c = ' ' then ['+'] else if alwaysSafeChar c then [c] else pctEncodeChar c) ++
      quotePlus rest

def intercalateChar (c : Char) : List Str → Str
  | [] => []
  | [x] => x
  | x :: xs => x ++ c :: intercalateChar c xs

/-- `urllib.parse.urlencode(dict, doseq=True)` over string values. -/
def urlencodePairs (ps : List (Str × Str)) : Str :=
  intercalateChar '&' (ps.map (fun p => quotePlus p.1 ++ '=' :: quotePlus p.2))

/-- Split at the first occurrence of a character, when present. -/
def splitAtChar (c : Char) : Str → Option (Str × Str)
  | [] => none
  | x :: xs =>
    if x = c then some ([], xs)
    else (splitAtChar c xs).map (fun p => (x :: p.1, p.2))

/-- Split at the last occurrence of a character, when present. -/
def splitAtLastChar (c : Char) : Str → Option (Str × Str)
  | [] => none
  | x :: xs =>
    match splitAtLastChar c xs with
    | some (a, b) => some (x :: a, b)
    | none => if x = c then some ([], xs) else none

/-- Python `s.split(c)`: every piece, the empty string giving `[""]`. -/
def splitAllChar (c : Char) : Str → List Str
  | [] => [[]]
  | x :: xs =>
    if x = c then [] :: splitAllChar c xs
    else
      match splitAllChar c xs with
      | [] => [[x]]
      | y :: ys => (x :: y) :: ys

def replaceChar (a b : Char) (s : Str) : Str :=
  s.map (fun c => if c = a then b else c)

/-- `urllib.parse.parse_qsl` with CPython 3.8.8+ defaults: chunks split on
ampersands; chunks without an equals sign and chunks with an empty value
are dropped; plus signs become spaces and percent escapes are decoded in
both names and values. -/
def parseQsl (qs : Str) : List (Str × Str) :=
  (splitAllChar '&' qs).foldr
    (fun chunk acc =>
      if chunk = [] then acc
      else
        match splitAtChar '=' chunk with
        | none => acc
        | some (n, v) =>
          if v = [] then acc
          else
            (unquoteL (replaceChar '+' ' ' n), unquoteL (replaceChar '+' ' ' v)) :: acc)
    []

/-- Python `dict(pairs)`: first insertion fixes the position of a key,
the last assignment fixes its value. -/
def dictSet (d : List (Str × Str)) (k v : Str) : List (Str × Str) :=
  if d.any (fun p => p.1 == k) then d.map (fun p => if p.1 = k then (k, v) else p)
  else d ++ [(k, v)]

def dictOfPairs (ps : List (Str × Str)) : List (Str × Str) :=
  ps.foldl (fun d p => dictSet d p.1 p.2) []

def dictHasKey (d : List (Str × Str)) (k : Str) : Bool :=
  d.any (fun p => p.1 == k)

def dictFind (d : List (Str × Str)) (k : Str) : Option Str :=
  (d.find? (fun p => p.1 == k)).map Prod.snd

/-- Python `dict.pop(k)`: the remaining entries, in order. -/
def dictRemove (d : List (Str × Str)) (k : Str) : List (Str × Str) :=
  d.filter (fun p => !(p.1 == k))

/-- The scheme characters CPython accepts before the colon. -/
def schemeChar (c : Char) : Bool :=
  c.isAlphanum || c = '+' || c = '-' || c = '.'

def lowerChar (c : Char) : Char := c.toLower

/-- The netloc scan of CPython `urlsplit`: everything after the double
slash up to the first slash, question mark or hash. -/
def netlocSplit : Str → Str × Str
  | [] => ([], [])
  | c :: rest =>
    if c = '/' || c = '?' || c = '#' then ([], c :: rest)
    else
      let p := netlocSplit rest
      (c :: p.1, p.2)

/-- CPython removes tab, carriage return and line feed anywhere in a URL
before splitting it. -/
def stripUnsafeUrlChars (s : Str) : Str :=
  s.filter (fun c => !(c = Char.ofNat 9 || c = Char.ofNat 13 || c = Char.ofNat 10))

structure UrlParts where
  scheme : Str
  netloc : Str
  path : Str
  params : Str
  query : Str
  fragment : Str
deriving DecidableEq, Repr

/-- CPython `urlsplit` (without the bracket-host validation, which only
raises on IPv6 literals): optional scheme before the first colon when all
its characters are scheme characters, optional netloc after a double
slash, then the fragment split at the first hash and the query at the
first question mark. -/
def urlsplitCore (url0 : Str) : Str × Str × Str × Str × Str :=
  let u0 := stripUnsafeUrlChars url0
  let sp :=
    match splitAtChar ':' u0 with
    | some (pre, post) =>
      if !pre.isEmpty && pre.all schemeChar then (pre.map lowerChar, post) else ([], u0)
    | none => ([], u0)
  let scheme := sp.1
  let u1 := sp.2
  let np :=
    if u1.take 2 = ['/', '/'] then netlocSplit (u1.drop 2) else ([], u1)
  let netloc := np.1
  let u2 := np.2
  let fp :=
    match splitAtChar '#' u2 with
    | some (a, b) => (a, b)
    | none => (u2, [])
  let u3 := fp.1
  let fragment := fp.2
  let qp :=
    match splitAtChar '?' u3 with
    | some (a, b) => (a, b)
    | none => (u3, [])
  (scheme, netloc, qp.1, qp.2, fragment)

/-- The parameter split of CPython `urlparse`: a semicolon is looked for
only in the last path segment. -/
def splitParams (p : Str) : Str × Str :=
  match splitAtLastChar '/' p with
  | some (dir, seg) =>
    (match splitAtChar ';' seg with
     | some (a, b) => (dir ++ '/' :: a, b)
     | none => (p, []))
  | none =>
    (match splitAtChar ';' p with
     | some (a, b) => (a, b)
     | none => (p, []))

/-- CPython `urlparse`. -/
def urlparse (url : Str) : UrlParts :=
  let u := urlsplitCore url
  let pp := splitParams u.2.2.1
  ⟨u.1, u.2.1, pp.1, pp.2, u.2.2.2.1, u.2.2.2.2⟩

/-- CPython `urlunsplit`. -/
def urlunsplitCore (scheme netloc url0 query fragment : Str) : Str :=
  let url1 :=
    if !netloc.isEmpty || url0.take 2 = ['/', '/'] then
      ('/' :: '/' :: netloc) ++
        (if !url0.isEmpty && url0.take 1 ≠ ['/'] then '/' :: url0 else url0)
    else url0
  let url2 := if !scheme.isEmpty then scheme ++ ':' :: url1 else url1
  let url3 := if !query.isEmpty then url2 ++ '?' :: query else url2
  if !fragment.isEmpty then url3 ++ '#' :: fragment else url3

/-- CPython `urlunparse`, which is also `ParseResult.geturl`. -/
def urlunparse (p : UrlParts) : Str :=
  urlunsplitCore p.scheme p.netloc
    (if !p.params.isEmpty then p.path ++ ';' :: p.params else p.path) p.query p.fragment

/-! ## The SOS URL cleaner and the two client factories -/

structure CleanedResult where
  newUrl : UrlParts
  service : Option Str
  version : Str
  request : Option Str
deriving DecidableEq, Repr

/-- `SosServiceHandler.get_cleaned_url_params`: unquote the URL, parse it,
read the query pairs into a dict, pop `version` (default 2.0.0),
`service` and `request`, re-encode the remainder and rebuild the parse
result with the new query. -/
def get_cleaned_url_params (url : Str) : CleanedResult :=
  let u := unquoteL url
  let parsed := urlparse u
  let d0 := dictOfPairs (parseQsl parsed.query)
  let version :=
    match dictFind d0 (chars "version") with
    | some v => v
    | none => chars "2.0.0"
  let d1 := if dictHasKey d0 (chars "version") then dictRemove d0 (chars "version") else d0
  let service := dictFind d1 (chars "service")
  let d2 := if dictHasKey d1 (chars "service") then dictRemove d1 (chars "service") else d1
  let request := dictFind d2 (chars "request")
  let d3 := if dictHasKey d2 (chars "request") then dictRemove d2 (chars "request") else d2
  ⟨⟨parsed.scheme, parsed.netloc, parsed.path, parsed.params, urlencodePairs d3,
    parsed.fragment⟩, service, version, request⟩

/-- The cleaned URL string: `geturl()` of the rebuilt parse result, as
`parsed_service` and `create_geonode_service` use it. -/
def cleanedUrlString (url : Str) : Str :=
  urlunparse (get_cleaned_url_params url).newUrl

/-- The state `BaseSensorThingsService.__init__` leaves behind:
`ctorUrl` records the URL the client was constructed with (what the
client is bound to), `url` is `self.url` after the optional query split
or trailing-slash normalization. Splitting a URL with two or more
question marks does not unpack into two names and raises ValueError. -/
structure StaClient where
  ctorUrl : Str
  url : Str
  urlQueryString : Option Str
deriving DecidableEq, Repr

def rstripChar (c : Char) (s : Str) : Str :=
  (s.reverse.dropWhile (fun x => x = c)).reverse

def staClientInit (url : Str) : Except Err StaClient :=
  if url.contains '?' then
    match splitAllChar '?' url with
    | [a, b] => .ok ⟨url, a, some b⟩
    | _ => .error .valueError
  else .ok ⟨url, rstripChar '/' url ++ ['/'], none⟩

/-- `urlunparse` of a parsed URL with its query dropped: the base form
both proxification helpers compute. -/
def baseNoQuery (url : Str) : Str :=
  let parsed := urlparse url
  urlunparse ⟨parsed.scheme, parsed.netloc, parsed.path, parsed.params, [],
    parsed.fragment⟩

/-- `get_proxified_sta_url`: for an http URL, drop the query from the
parsed URL, percent-encode the result and append it to the proxy base.
A URL that does not start with http is returned bare, and the three-name
unpacking at the call site then fails: modelled as ValueError. -/
def get_proxified_sta_url (url : Str) (version : Str) (proxy_base : Str) :
    Except Err (Str × Str × Str) :=
  if url.take 4 = chars "http" then
    let base := baseNoQuery url
    .ok (version, proxy_base ++ chars "?url=" ++ pyQuoteEmptySafe base, base)
  else .error .valueError

/-- The `SensorThingsService` factory function: proxify when a non-empty
proxy base is supplied, then dispatch on the version, constructing the
client only inside the supported branch. -/
def SensorThingsServiceF (url version : Str) (proxy_base : Option Str) :
    Except Err (Str × StaClient) := do
  let triple ←
    match proxy_base with
    | some pb =>
      if pb.isEmpty then Except.ok (version, url, url)
      else get_proxified_sta_url url version pb
    | none => Except.ok (version, url, url)
  let cleanVersion := triple.1
  let cleanUrl := triple.2.1
  let baseStaUrl := triple.2.2
  if cleanVersion = chars "1.1" then do
    let client ← staClientInit cleanUrl
    .ok (baseStaUrl, client)
  else .error (.unsupportedVersion cleanVersion [chars "1.0", chars "1.1"])

/-- The record the owslib / sos4py client constructors leave behind, as
far as the handler observes it: the URL the client was constructed with
(the overridden owslib `__new__` runs `__init__` on it) and the version. -/
structure SosClient where
  ctorUrl : Str
  version : Str
deriving DecidableEq, Repr

/-- Modelled from the spec: `base.get_proxified_ows_url` is not among the
sources. Per the spec the URL is rewritten to route through the proxy and
the returned effective base URL is the original unproxied canonical
endpoint; modelled like its STA sibling `get_proxified_sta_url`, with the
version passed through unchanged. -/
def get_proxified_ows_url (url version proxy_base : Str) : Str × Str × Str :=
  let base := baseNoQuery url
  (version, proxy_base ++ chars "?url=" ++ pyQuoteEmptySafe base, base)

/-- The `SensorObservationService` factory function. `cleanOws` is the
external `owslib.util.clean_ows_url` collaborator, kept abstract. -/
def SensorObservationServiceF (cleanOws : Str → Str) (url version : Str)
    (proxy_base : Option Str) : Except Err (Str × SosClient) :=
  let triple :=
    match proxy_base with
    | some pb =>
      if pb.isEmpty then (version, cleanOws url, cleanOws url)
      else get_proxified_ows_url url version pb
    | none => (version, cleanOws url, cleanOws url)
  let cleanVersion := triple.1
  let cleanUrl := triple.2.1
  let baseOwsUrl := triple.2.2
  if cleanVersion = chars "1.0.0" then .ok (baseOwsUrl, ⟨cleanUrl, cleanVersion⟩)
  else if cleanVersion = chars "2.0.0" ∨ cleanVersion = chars "2.0" then
    .ok (baseOwsUrl, ⟨cleanUrl, cleanVersion⟩)
  else .error (.unsupportedVersion cleanVersion [chars "1.0.0", chars "2.0.0"])

/-! ## `BaseSensorThingsService`: collection fetching and fetch-by-id -/

/-- The observable surroundings of an STA handler: the registered service
URL, the remote transport (GET a URL and parse the body as JSON, `none`
modelling a transport or parse failure that raises), and the moderation
configuration flags, already disjoined as the source tests them. -/
structure StaEnv where
  serviceUrl : Str
  fetch : Str → Option PyVal
  moderation : Bool

/-- `__get_json_data`: `http_get(url).json()`. -/
def sta_get_json_data (env : StaEnv) (url : Str) : Except Err PyVal :=
  match env.fetch url with
  | some v => .ok v
  | none => .error (.fetchError url)

/-- A `.json()` call on the value `__get_json_data` already returned:
that value is parsed JSON (a dict, list, string, number or None), and
none of these has a `json` attribute, so the call always raises
AttributeError. -/
def pyJsonMethod (_ : PyVal) : Except Err PyVal :=
  .error (.attributeError (chars "json"))

/-- `__get_value`: `response[key] if key in response else None`. On a
dict this is a total lookup defaulting to None; `key in response` on a
list compares the key against the elements (an actual hit would then
index the list with a string and raise TypeError), on a string it is a
substring test, and on None or a number it raises TypeError. -/
def strHasSub (needle : Str) (hay : Str) : Bool :=
  match hay with
  | [] => needle.isEmpty
  | _ :: rest => needle.isPrefixOf hay || strHasSub needle rest

def sta_get_value (key : Str) (response : PyVal) : Except Err PyVal :=
  match response with
  | .dict fs =>
    match pyLookup key fs with
    | some v => .ok v
    | none => .ok .null
  | .list xs => if (PyVal.str key) ∈ xs then .error .typeError else .ok .null
  | .str s => if strHasSub key s then .error .typeError else .ok .null
  | _ => .error .typeError

/-- `__get_next_link`. -/
def sta_get_next_link (response : PyVal) : Except Err PyVal :=
  sta_get_value (chars "@iot.nextLink") response

/-- `list.extend(temp)` on the accumulated elements. -/
def pyExtendVal (elements temp : PyVal) : Except Err PyVal :=
  match elements with
  | .list xs => (iterObj temp).map (fun ys => .list (xs ++ ys))
  | _ => .error (.attributeError (chars "extend"))

/-- The while-loop of `__get_elements`, with an explicit fuel bound on the
number of iterations. Each iteration evaluates
`self.__get_json_data(nextLink).json()`: the trailing `.json()` is applied
to the already-parsed value, so every entered iteration raises
AttributeError and any positive fuel reaches the exception. The inner
guard re-tests `response is not None` exactly as the source does (where
`temp` was presumably meant). -/
def sta_get_elements_loop (env : StaEnv) : Nat → PyVal → PyVal → Except Err PyVal
  | 0, _, _ => .error .loopFuel
  | fuel + 1, elements, nextLink =>
    if nextLink = .null then .ok elements
    else do
      let raw ←
        match nextLink with
        | .str u => sta_get_json_data env u
        | _ => .error .typeError
      let response ← pyJsonMethod raw
      if response = .null then sta_get_elements_loop env fuel elements nextLink
      else do
        let nextLink2 ← sta_get_next_link response
        let temp ← sta_get_value (chars "value") response
        let elements2 ← if response ≠ .null then pyExtendVal elements temp else pure elements
        sta_get_elements_loop env fuel elements2 nextLink2

/-- `__get_elements`: fetch the first page; when the response or its
`value` entry is None the function falls off its end and returns None,
otherwise the pagination loop runs. -/
def sta_get_elements (env : StaEnv) (fuel : Nat) (url : Str) : Except Err PyVal := do
  let response ← sta_get_json_data env url
  if response = .null then .ok .null
  else do
    let elements ← sta_get_value (chars "value") response
    let nextLink ← sta_get_next_link response
    if elements = .null then .ok .null
    else sta_get_elements_loop env fuel elements nextLink

/-- `__get_by_identifier`: fetch with the identifier in single quotes,
index the response with `error`, refetch without quotes when that entry
is not None, and otherwise return the first response. -/
def sta_get_by_identifier (env : StaEnv) (client : StaClient) (resource identifier : Str) :
    Except Err PyVal := do
  let data ← sta_get_json_data env
    (client.url ++ resource ++ ('(' :: [sq]) ++ identifier ++ (sq :: [')']))
  let e ← pyGetItem data (chars "error")
  if e ≠ .null then
    sta_get_json_data env (client.url ++ resource ++ ['('] ++ identifier ++ [')'])
  else .ok data

/-- `getDatastream`. -/
def staGetDatastream (env : StaEnv) (client : StaClient) (identifier : Str) :
    Except Err PyVal :=
  sta_get_by_identifier env client (chars "Datastreams") identifier

/-- `__get_name`: for each item, `item[NAME]` unless that is None, in
which case `item[IOT_ID]`. -/
def sta_get_name_list (data : PyVal) : Except Err (List PyVal) := do
  let items ← iterObj data
  items.mapM (fun item => do
    let n ← pyGetItem item (chars "name")
    if n ≠ .null then pure n else pyGetItem item (chars "@iot.id"))

/-- `"?$filter=Observations/Datastream/id eq '"`. -/
def filterObservationDatastreamIdEq : Str :=
  chars "?$filter=Observations/Datastream/id eq " ++ [sq]

/-- `"?$filter=Datastreams/id eq '"`. -/
def filterDatastreamsIdEq : Str := chars "?$filter=Datastreams/id eq " ++ [sq]

/-- `"$select=id,name"`. -/
def selectIdName : Str := chars "$select=id,name"

/-- `getFeaturesForDatastream`; the id is concatenated into the query
(TypeError unless it is a string, matching `str.__add__`). -/
def staGetFeaturesForDatastream (env : StaEnv) (fuel : Nat) (client : StaClient)
    (id : PyVal) : Except Err PyVal := do
  let idStr ← pyStrAdd [] id
  sta_get_elements env fuel
    (client.url ++ chars "FeaturesOfInterest" ++ filterObservationDatastreamIdEq ++
      idStr ++ [sq])

/-- `getFeatureOfInterestNamesForDatastream`. -/
def staGetFeatureOfInterestNamesForDatastream (env : StaEnv) (fuel : Nat)
    (client : StaClient) (id : PyVal) : Except Err (List PyVal) := do
  let idStr ← pyStrAdd [] id
  let data ← sta_get_elements env fuel
    (client.url ++ chars "FeaturesOfInterest" ++ filterObservationDatastreamIdEq ++
      idStr ++ [sq] ++ ['&'] ++ selectIdName)
  sta_get_name_list data

/-- `getObservedPropertyNamesForDatastream`. -/
def staGetObservedPropertyNamesForDatastream (env : StaEnv) (fuel : Nat)
    (client : StaClient) (id : PyVal) : Except Err (List PyVal) := do
  let idStr ← pyStrAdd [] id
  let data ← sta_get_elements env fuel
    (client.url ++ chars "ObservedProperties" ++ filterDatastreamsIdEq ++
      idStr ++ [sq] ++ ['&'] ++ selectIdName)
  sta_get_name_list data

/-- `getSensorNamesForDatastream`. -/
def staGetSensorNamesForDatastream (env : StaEnv) (fuel : Nat) (client : StaClient)
    (id : PyVal) : Except Err (List PyVal) := do
  let idStr ← pyStrAdd [] id
  let data ← sta_get_elements env fuel
    (client.url ++ chars "Sensors" ++ filterDatastreamsIdEq ++
      idStr ++ [sq] ++ ['&'] ++ selectIdName)
  sta_get_name_list data

/-- `getThingNamesForDatastream`. -/
def staGetThingNamesForDatastream (env : StaEnv) (fuel : Nat) (client : StaClient)
    (id : PyVal) : Except Err (List PyVal) := do
  let idStr ← pyStrAdd [] id
  let data ← sta_get_elements env fuel
    (client.url ++ chars "Things" ++ filterDatastreamsIdEq ++
      idStr ++ [sq] ++ ['&'] ++ selectIdName)
  sta_get_name_list data

/-! ## The STA handler: bbox resolution, keywords, normalization -/

/-- Modelled from the spec: django `slugify` is not among the sources;
per the spec, slugification lowercases and collapses runs of
non-alphanumeric characters to single separators, trimmed at the ends. -/
def slugify (s : Str) : Str :=
  let t := s.map (fun c => if (lowerChar c).isAlphanum then lowerChar c else '-')
  let u := t.foldr
    (fun c acc =>
      match acc with
      | '-' :: _ => if c = '-' then acc else c :: acc
      | _ => c :: acc) []
  (u.dropWhile (fun c => c = '-')).reverse.dropWhile (fun c => c = '-') |>.reverse

/-- Modelled from the spec: `geonode.utils.decimal_encode` is not among
the sources; the spec uses the `observedArea` box directly as the
bounding box, so the encoding is modelled as the identity. -/
def decimal_encode (v : PyVal) : PyVal := v

/-- `StaServiceHandler.parsed_service`: a fresh client from the factory
at version 1.1 with no proxy. -/
def staParsedService (env : StaEnv) : Except Err StaClient :=
  (SensorThingsServiceF env.serviceUrl (chars "1.1") none).map Prod.snd

/-- `self.name = slugify(self.url)[:255]`. -/
def staHandlerName (env : StaEnv) : Str := (slugify env.serviceUrl).take 255

/-- `StaServiceHandler.get_resource`. -/
def sta_get_resource (env : StaEnv) (resource_id : Str) : Except Err PyVal := do
  let client ← staParsedService env
  staGetDatastream env client resource_id

/-- One iteration of the feature loop in `__get_bbox`:
`geojson.loads(json.dumps(f['feature']))` rebuilds the same structure
(modelled as the identity), and the loop reads `coordinates[0]` and
`coordinates[1]` of it. -/
def sta_feature_point (f : PyVal) : Except Err (PyVal × PyVal) := do
  let geom ← pyGetItem f (chars "feature")
  let coords ← pyAttr geom (chars "coordinates")
  let x ← pyIndex coords 0
  let y ← pyIndex coords 1
  pure (x, y)

/-- `StaServiceHandler.__get_bbox`: index `observedArea` (KeyError when
the key is absent), encode it when it is not None; when the box is None,
derive it from the features of the datastream as
`min(xs), max(xs), min(ys), max(ys)`; finally fail when the box has
fewer than four entries. -/
def sta_get_bbox (env : StaEnv) (fuel : Nat) (client : StaClient) (meta : PyVal) :
    Except Err PyVal := do
  let a ← pyGetItem meta (chars "observedArea")
  let bbox0 := if a ≠ .null then decimal_encode a else a
  let bbox ←
    if bbox0 = .null then do
      let idv ← pyGetItem meta (chars "@iot.id")
      let features ← staGetFeaturesForDatastream env fuel client idv
      let fs ← iterObj features
      let pts ← fs.mapM sta_feature_point
      let minx ← pyMinList (pts.map Prod.fst)
      let maxx ← pyMaxList (pts.map Prod.fst)
      let miny ← pyMinList (pts.map Prod.snd)
      let maxy ← pyMaxList (pts.map Prod.snd)
      pure (PyVal.list [minx, maxx, miny, maxy])
    else pure bbox0
  let n ← pyLen bbox
  if n < 4 then .error (.invalidBBox bbox) else .ok bbox

/-- `StaServiceHandler._get_keywords_for_resource`: the union of the four
name sets, in update order. -/
def sta_keywords_for_resource (env : StaEnv) (fuel : Nat) (client : StaClient)
    (resource_id : PyVal) : Except Err (List PyVal) := do
  let l1 ← staGetObservedPropertyNamesForDatastream env fuel client resource_id
  let l2 ← staGetFeatureOfInterestNamesForDatastream env fuel client resource_id
  let l3 ← staGetSensorNamesForDatastream env fuel client resource_id
  let l4 ← staGetThingNamesForDatastream env fuel client resource_id
  pure (setUpdate (setUpdate (setUpdate (setUpdate [] l1) l2) l3) l4)

/-- `keyword[:100]`. -/
def pySlice100 (v : PyVal) : Except Err PyVal :=
  match v with
  | .str s => .ok (.str (s.take 100))
  | .list xs => .ok (.list (xs.take 100))
  | _ => .error .typeError

/-- The canonical field record `_get_indexed_dataset_fields` produces.
`fromXy` is the coordinate list handed to `BBOXHelper.from_xy(...)`
(polygon construction itself is an external collaborator). -/
structure StaFields where
  name : PyVal
  store : Str
  subtype : Str
  workspace : Str
  typename : Str
  alternate : PyVal
  title : PyVal
  abstract : PyVal
  fromXy : List PyVal
  srid : PyVal
  keywords : List PyVal
deriving DecidableEq

/-- `StaServiceHandler._get_indexed_dataset_fields`. -/
def sta_get_indexed_dataset_fields (env : StaEnv) (fuel : Nat) (client : StaClient)
    (meta : PyVal) : Except Err StaFields := do
  let bbox ← sta_get_bbox env fuel client meta
  let idv ← pyGetItem meta (chars "@iot.id")
  let namev ← pyGetItem meta (chars "name")
  let nameStr ←
    match namev with
    | .str s => Except.ok s
    | _ => Except.error Err.typeError
  let typename := slugify (pyToStr idv ++ '-' :: nameStr.filter (fun c => c.toNat < 128))
  let descv ← pyGetItem meta (chars "description")
  let b0 ← pyIndex bbox 0
  let b2 ← pyIndex bbox 2
  let b1 ← pyIndex bbox 1
  let b3 ← pyIndex bbox 3
  let n ← pyLen bbox
  let srid ← if n > 4 then pyIndex bbox 4 else pure (PyVal.str (chars "EPSG:4326"))
  let kws ← sta_keywords_for_resource env fuel client idv
  let keywords ← kws.mapM pySlice100
  pure ⟨namev, staHandlerName env, chars "remote", chars "remoteWorkspace", typename,
    namev, namev, descv, [b0, b2, b1, b3], srid, keywords⟩

/-! ## The harvest orchestrator and the external catalog -/

/-- One persisted catalog dataset, with the fields the orchestrator
sets: the duplicate-check key (name, store, workspace) plus the derived
metadata. -/
structure DatasetRec where
  name : PyVal
  store : Str
  workspace : Str
  typename : Str
  keywords : List PyVal
  isApproved : Bool
  isPublished : Bool
  owsUrl : Str
deriving DecidableEq

/-- One cross-reference link record; `resource` is the handle of the
dataset it points at. -/
structure LinkRec where
  resource : Nat
  name : Str
  linkType : Str
  url : Str
deriving DecidableEq

/-- The external catalog: persisted datasets and link records. -/
structure CatalogState where
  datasets : List DatasetRec
  links : List LinkRec
deriving DecidableEq

/-- `Dataset.objects.filter(name=..., store=..., workspace=...).exists()`. -/
def datasetExists (st : CatalogState) (name : PyVal) (store workspace : Str) : Bool :=
  st.datasets.any
    (fun d => d.name == name && d.store == store && d.workspace == workspace)

/-- The already-saved `geonode.services.models.Service` row the harvest
call receives, reduced to the fields the orchestrator reads. -/
structure GeonodeService where
  name : Str
  serviceUrl : Str
deriving DecidableEq

def linkKeyMatches (l : LinkRec) (did : Nat) (nm lt : Str) : Bool :=
  l.resource == did && l.name == nm && l.linkType == lt

/-- `StaServiceHandler._create_dataset_service_link`: when fewer than two
matching links exist, update-or-create the link for the dataset. -/
def sta_create_dataset_service_link (st : CatalogState) (did : Nat) (ds : DatasetRec) :
    CatalogState :=
  let nm := chars "OGC STA: " ++ ds.store ++ chars " Service"
  let lt := chars "OGC:STA"
  if (st.links.filter (fun l => linkKeyMatches l did nm lt)).length < 2 then
    if st.links.any (fun l => linkKeyMatches l did nm lt) then
      { st with links :=
          st.links.map fun l =>
            if linkKeyMatches l did nm lt then { l with url := ds.owsUrl } else l }
    else { st with links := st.links ++ [⟨did, nm, lt, ds.owsUrl⟩] }
  else st

/-- `StaServiceHandler.harvest_resource`: fetch the record, normalize it,
fail when a dataset with the same (name, store, workspace) already
exists, otherwise create the dataset (approved and published unless
moderation is configured) and create the service link. The returned
state is the catalog as the call leaves it, also on failure. -/
def sta_harvest_resource (env : StaEnv) (fuel : Nat) (gs : GeonodeService)
    (st : CatalogState) (resource_id : Str) : Except Err Unit × CatalogState :=
  match (do
      let client ← staParsedService env
      let meta ← staGetDatastream env client resource_id
      sta_get_indexed_dataset_fields env fuel client meta : Except Err StaFields) with
  | .error e => (.error e, st)
  | .ok flds =>
    if datasetExists st flds.name flds.store flds.workspace then
      (.error (.alreadyHarvested resource_id), st)
    else
      let approved := !env.moderation
      let ds : DatasetRec :=
        ⟨flds.name, flds.store, flds.workspace, flds.typename, flds.keywords,
          approved, approved, gs.serviceUrl⟩
      let did := st.datasets.length
      let st1 := { st with datasets := st.datasets ++ [ds] }
      (.ok (), sta_create_dataset_service_link st1 did ds)

/-! ## The SOS handler -/

/-- One parsed SOS capabilities offering, with the attributes the handler
reads (the XML parsing lives in the external owslib/sos4py collaborator). -/
structure SosOffering where
  id : Str
  name : Str
  description : Str
  bbox : List PyVal
  bbox_srs : Option Str
  observed_properties : List Str
  procedures : List Str
  features_of_interest : List Str
  begin_position : Str
  end_position : Str
deriving DecidableEq

/-- The observable surroundings of a SOS handler: the registered service
URL, the parsed capabilities contents (offering id to offering, an
external collaborator) and the moderation flags. -/
structure SosEnv where
  serviceUrl : Str
  contents : Str → Option SosOffering
  moderation : Bool

def sosHandlerName (env : SosEnv) : Str := (slugify env.serviceUrl).take 255

/-- `SosServiceHandler.get_resource`:
`self.parsed_service.contents[resource_id]`. -/
def sos_get_resource (env : SosEnv) (resource_id : Str) : Except Err SosOffering :=
  match env.contents resource_id with
  | some o => .ok o
  | none => .error (.keyError resource_id)

/-- `SosServiceHandler._get_keywords_for_resource`: the union of the
observed properties, procedures and features of interest. -/
def sos_keywords_for_resource (o : SosOffering) : List Str :=
  setUpdate (setUpdate (setUpdate [] o.observed_properties) o.procedures)
    o.features_of_interest

/-- The canonical field record for a SOS offering; `fromXy` is the
coordinate list handed to `BBOXHelper.from_xy(...)`. -/
structure SosFields where
  name : Str
  store : Str
  subtype : Str
  workspace : Str
  typename : Str
  alternate : Str
  title : Str
  abstract : Str
  fromXy : List PyVal
  srid : PyVal
  keywords : List Str
  temporalExtentStart : Str
  temporalExtentEnd : Str
deriving DecidableEq

/-- `SosServiceHandler._get_indexed_dataset_fields`. -/
def sos_get_indexed_dataset_fields (env : SosEnv) (o : SosOffering) :
    Except Err SosFields := do
  if o.bbox.length < 4 then Except.error (.invalidBBox (.list o.bbox))
  else do
    let typename := slugify (o.id ++ '-' :: o.name.filter (fun c => c.toNat < 128))
    let b0 ← pyIndex (.list o.bbox) 0
    let b2 ← pyIndex (.list o.bbox) 2
    let b1 ← pyIndex (.list o.bbox) 1
    let b3 ← pyIndex (.list o.bbox) 3
    let srid :=
      match o.bbox_srs with
      | some s => PyVal.str s
      | none => PyVal.str (chars "EPSG:4326")
    pure ⟨o.id, sosHandlerName env, chars "remote", chars "remoteWorkspace", typename,
      o.id, o.name, o.description, [b0, b2, b1, b3], srid,
      (sos_keywords_for_resource o).map (fun k => k.take 100),
      o.begin_position, o.end_position⟩

/-- One method binding of an operation in the service `operations` map. -/
structure OpMethod where
  mtype : Str
  url : Str
deriving DecidableEq

/-- The saved SOS service row, with the `operations` map the link
creation reads. -/
structure SosGeonodeService where
  name : Str
  serviceUrl : Str
  operations : List (Str × List OpMethod)
deriving DecidableEq

def upperChar (c : Char) : Char := c.toUpper

/-- `Dataset.objects.filter(id=...).update(ows_url=...)`: replace the
access URL of the row with the given handle. -/
def updateOwsAt : List DatasetRec → Nat → Str → List DatasetRec
  | [], _, _ => []
  | d :: rest, 0, u => { d with owsUrl := u } :: rest
  | d :: rest, n + 1, u => d :: updateOwsAt rest n u

/-- `SosServiceHandler._create_dataset_service_link`: prefer the first
GET-method GetCapabilities URL, updating the dataset row with it, then
create or update the link when fewer than two matching links exist. -/
def sosGetCapsMethod (gs : SosGeonodeService) : Option OpMethod :=
  match (gs.operations.find? (fun p => p.1 == chars "GetCapabilities")).map Prod.snd with
  | some methods =>
    if methods.isEmpty then none
    else methods.find? (fun m => m.mtype.map upperChar == chars "GET" && !m.url.isEmpty)
  | none => none

def sos_create_dataset_service_link (gs : SosGeonodeService) (st : CatalogState)
    (did : Nat) (ds : DatasetRec) : CatalogState :=
  let found : Option OpMethod := sosGetCapsMethod gs
  let owsUrl :=
    match found with
    | some m => m.url
    | none => ds.owsUrl
  let st1 :=
    match found with
    | some m => { st with datasets := updateOwsAt st.datasets did m.url }
    | none => st
  let nm := chars "OGC SOS: " ++ ds.store ++ chars " Service"
  let lt := chars "OGC:SOS"
  if (st1.links.filter (fun l => linkKeyMatches l did nm lt)).length < 2 then
    if st1.links.any (fun l => linkKeyMatches l did nm lt) then
      { st1 with links :=
          st1.links.map fun l =>
            if linkKeyMatches l did nm lt then { l with url := owsUrl } else l }
    else { st1 with links := st1.links ++ [⟨did, nm, lt, owsUrl⟩] }
  else st1

/-- `SosServiceHandler.harvest_resource`, the same workflow as the STA
harvest over the SOS normalizer and link creation. -/
def sos_harvest_resource (env : SosEnv) (gs : SosGeonodeService) (st : CatalogState)
    (resource_id : Str) : Except Err Unit × CatalogState :=
  match (do
      let offering ← sos_get_resource env resource_id
      sos_get_indexed_dataset_fields env offering : Except Err SosFields) with
  | .error e => (.error e, st)
  | .ok flds =>
    if datasetExists st (.str flds.name) flds.store flds.workspace then
      (.error (.alreadyHarvested resource_id), st)
    else
      let approved := !env.moderation
      let ds : DatasetRec :=
        ⟨.str flds.name, flds.store, flds.workspace, flds.typename,
          flds.keywords.map (fun k => .str k), approved, approved, gs.serviceUrl⟩
      let did := st.datasets.length
      let st1 := { st with datasets := st.datasets ++ [ds] }
      (.ok (), sos_create_dataset_service_link gs st1 did ds)

/-! ## Character classes and URL shapes used in theorem statements -/

/-- Hostname characters (letters, digits, dots, hyphens). -/
def hostChar (c : Char) : Bool := c.isAlphanum || c = '.' || c = '-'

/-- Plain path characters. -/
def pathChar (c : Char) : Bool :=
  c.isAlphanum || c = '/' || c = '.' || c = '-' || c = '_'

/-- Characters of an encoded query that re-encoding leaves unchanged. -/
def queryChar (c : Char) : Bool := alwaysSafeChar c || c = '=' || c = '&'

/-- A plain absolute http URL with a query. -/
def mkHttpUrl (host path query : Str) : Str :=
  chars "http://" ++ host ++ path ++ '?' :: query

/-- A plain absolute http URL without a query. -/
def mkHttpUrlNq (host path : Str) : Str := chars "http://" ++ host ++ path

/-- All names and values of a pair list drawn from the always-safe
characters, with nonempty values. -/
def safePairs (ps : List (Str × Str)) : Prop :=
  ∀ pr ∈ ps, (∀ x ∈ pr.1, alwaysSafeChar x = true) ∧
    (∀ x ∈ pr.2, alwaysSafeChar x = true) ∧ pr.2 ≠ []

/-- The specified removal: exactly the parameters named `version`,
`service` and `request` are dropped, everything else is kept in order.
Written from the words of the spec, to be compared with the pipeline of
`get_cleaned_url_params`. -/
def stripReservedKeys (ps : List (Str × Str)) : List (Str × Str) :=
  ps.filter (fun pr =>
    !(pr.1 == chars "version" || pr.1 == chars "service" || pr.1 == chars "request"))

/-! ## Concrete environments used by witnesses and counterexamples -/

/-- A three-page chain exactly as the specified pagination test describes:
page one links to page two, page two to page three, page three carries no
next link. -/
def envPages : StaEnv where
  serviceUrl := chars "http://s"
  fetch u :=
    if u = chars "http://s/Datastreams" then
      some (.dict [(chars "value", .list [.int 1, .int 2]),
        (chars "@iot.nextLink", .str (chars "http://s/p2"))])
    else if u = chars "http://s/p2" then
      some (.dict [(chars "value", .list [.int 3]),
        (chars "@iot.nextLink", .str (chars "http://s/p3"))])
    else if u = chars "http://s/p3" then
      some (.dict [(chars "value", .list [.int 4])])
    else none
  moderation := false

/-- A concrete environment for the three branches of C10: three
datastream records, one with `error` mapping to None, one with a set
`error` (whose unquoted retry URL resolves), one without the key. -/
def envErrKey : StaEnv where
  serviceUrl := chars "http://s"
  fetch u :=
    if u = chars "http://s/Datastreams" ++ ('(' :: [sq]) ++ chars "A" ++ (sq :: [')']) then
      some (.dict [(chars "error", .null), (chars "@iot.id", .str (chars "A"))])
    else if u = chars "http://s/Datastreams" ++ ('(' :: [sq]) ++ chars "B" ++ (sq :: [')']) then
      some (.dict [(chars "error", .str (chars "bad id"))])
    else if u = chars "http://s/Datastreams(B)" then
      some (.dict [(chars "@iot.id", .int 7)])
    else if u = chars "http://s/Datastreams" ++ ('(' :: [sq]) ++ chars "C" ++ (sq :: [')']) then
      some (.dict [(chars "value", .list [])])
    else none
  moderation := false

def clientS : StaClient := ⟨chars "http://s", chars "http://s/", none⟩

/-- A datastream record whose observedArea has only two coordinates. -/
def dC5 : PyVal :=
  .dict [(chars "error", .null), (chars "observedArea", .list [.int 1, .int 2])]

def envC5 : StaEnv := ⟨chars "http://s", fun _ => some dC5, false⟩

/-- An offering whose bounding box has only two coordinates. -/
def oC5 : SosOffering :=
  ⟨chars "O", chars "Off", chars "d", [.int 1, .int 2], none, [], [], [],
    chars "2020", chars "2021"⟩

def envC5s : SosEnv :=
  ⟨chars "http://sos", fun r => if r = chars "O" then some oC5 else none, false⟩

def gsW : GeonodeService := ⟨chars "svc", chars "http://geonode/svc"⟩

def gsWs : SosGeonodeService := ⟨chars "svc", chars "http://geonode/svc", []⟩

def st0 : CatalogState := ⟨[], []⟩

/-- A complete, well-formed datastream record. -/
def dC2 : PyVal :=
  .dict [(chars "error", .null), (chars "@iot.id", .str (chars "X")),
    (chars "name", .str (chars "N")), (chars "description", .str (chars "D")),
    (chars "observedArea", .list [.int 1, .int 2, .int 3, .int 4]),
    (chars "value", .list [])]

def envC2 : StaEnv := ⟨chars "http://s", fun _ => some dC2, false⟩

/-- The normalized fields of dC2. -/
def fldsC2 : StaFields :=
  ⟨.str (chars "N"), staHandlerName envC2, chars "remote", chars "remoteWorkspace",
    slugify (chars "X-N"), .str (chars "N"), .str (chars "N"), .str (chars "D"),
    [.int 1, .int 3, .int 2, .int 4], .str (chars "EPSG:4326"), []⟩

/-- A complete, well-formed offering. -/
def oC2 : SosOffering :=
  ⟨chars "X", chars "N", chars "D", [.int 1, .int 2, .int 3, .int 4], none,
    [chars "temperature"], [], [], chars "2020", chars "2021"⟩

def envC2s : SosEnv :=
  ⟨chars "http://sos", fun r => if r = chars "X" then some oC2 else none, false⟩

/-- The normalized fields of oC2. -/
def fldsC2s : SosFields :=
  ⟨chars "X", sosHandlerName envC2s, chars "remote", chars "remoteWorkspace",
    slugify (chars "X-N"), chars "X", chars "N", chars "D",
    [.int 1, .int 3, .int 2, .int 4], .str (chars "EPSG:4326"),
    (sos_keywords_for_resource oC2).map (fun k => k.take 100),
    chars "2020", chars "2021"⟩

/-- A feature of interest whose point is (1, 3). -/
def fC4a : PyVal :=
  .dict [(chars "feature", .dict [(chars "coordinates", .list [.int 1, .int 3])])]

/-- A feature of interest whose point is (2, 4). -/
def fC4b : PyVal :=
  .dict [(chars "feature", .dict [(chars "coordinates", .list [.int 2, .int 4])])]

/-- A features-of-interest page holding fC4a and fC4b. -/
def featResp : PyVal := .dict [(chars "value", .list [fC4a, fC4b])]

def envC4 : StaEnv := ⟨chars "http://s", fun _ => some featResp, false⟩

/-- A record whose observedArea is explicitly null. -/
def gsC4 : List (Str × PyVal) :=
  [(chars "observedArea", .null), (chars "@iot.id", .str (chars "X"))]

/-- A record with no observedArea key at all. -/
def hsC4 : List (Str × PyVal) := [(chars "error", .null)]

/-- A named item list: two items named alpha and beta. -/
def dC9 : PyVal :=
  .dict [(chars "error", .null), (chars "@iot.id", .str (chars "X")),
    (chars "name", .str (chars "N")), (chars "description", .str (chars "D")),
    (chars "observedArea", .list [.int 1, .int 2, .int 3, .int 4]),
    (chars "value", .list [.dict [(chars "name", .str (chars "alpha"))],
      .dict [(chars "name", .str (chars "beta"))]])]

def envC9 : StaEnv := ⟨chars "http://s", fun _ => some dC9, false⟩

/-- An offering whose keyword sources overlap: temp occurs both as an
observed property and as a procedure. -/
def oC9 : SosOffering :=
  ⟨chars "O", chars "Off", chars "d", [.int 1, .int 2, .int 3, .int 4], none,
    [chars "temp", chars "hum"], [chars "temp"], [chars "foi"],
    chars "2020", chars "2021"⟩

def envC9s : SosEnv :=
  ⟨chars "http://sos", fun r => if r = chars "O" then some oC9 else none, false⟩

/-- The two item names of dC9. -/
def kwAB : List PyVal := [.str (chars "alpha"), .str (chars "beta")]


/-! ## Small reduction lemmas used throughout the proofs -/

@[simp] theorem exceptBind_ok {α β : Type} (a : α) (f : α → Except Err β) :
    (Except.ok a >>= f : Except Err β) = f a := rfl

@[simp] theorem exceptBind_error {α β : Type} (e : Err) (f : α → Except Err β) :
    (Except.error e >>= f : Except Err β) = .error e := rfl

theorem sta_get_json_data_ok {env : StaEnv} {url : Str} {v : PyVal}
    (h : env.fetch url = some v) : sta_get_json_data env url = .ok v := by
  unfold sta_get_json_data
  rw [h]

theorem pyGetItem_dict (fs : List (Str × PyVal)) (key : Str) :
    pyGetItem (.dict fs) key =
      match pyLookup key fs with
      | some x => .ok x
      | none => .error (.keyError key) := rfl

theorem pyGetItem_dict_some {fs : List (Str × PyVal)} {key : Str} {x : PyVal}
    (h : pyLookup key fs = some x) : pyGetItem (.dict fs) key = .ok x := by
  rw [pyGetItem_dict, h]

theorem pyGetItem_dict_none {fs : List (Str × PyVal)} {key : Str}
    (h : pyLookup key fs = none) : pyGetItem (.dict fs) key = .error (.keyError key) := by
  rw [pyGetItem_dict, h]

/-! ## Lemmas about the embedded `urllib.parse` helpers -/

theorem splitAtChar_not_mem {c : Char} : ∀ {l : Str}, c ∉ l → splitAtChar c l = none
  | [], _ => rfl
  | x :: xs, h => by
    have hx : ¬x = c := fun e => h (e ▸ List.mem_cons_self x xs)
    have hxs : c ∉ xs := fun e => h (List.mem_cons_of_mem x e)
    simp [splitAtChar, hx, splitAtChar_not_mem hxs]

theorem splitAtChar_append {c : Char} :
    ∀ {a : Str} (b : Str), c ∉ a → splitAtChar c (a ++ c :: b) = some (a, b)
  | [], b, _ => by simp [splitAtChar]
  | x :: xs, b, h => by
    have hx : ¬x = c := fun e => h (e ▸ List.mem_cons_self x xs)
    have hxs : c ∉ xs := fun e => h (List.mem_cons_of_mem x e)
    simp [splitAtChar, hx, splitAtChar_append b hxs]

theorem splitAtLastChar_not_mem {c : Char} : ∀ {l : Str}, c ∉ l → splitAtLastChar c l = none
  | [], _ => rfl
  | x :: xs, h => by
    have hx : ¬x = c := fun e => h (e ▸ List.mem_cons_self x xs)
    have hxs : c ∉ xs := fun e => h (List.mem_cons_of_mem x e)
    simp [splitAtLastChar, splitAtLastChar_not_mem hxs, hx]

theorem splitAllChar_not_mem {c : Char} : ∀ {l : Str}, c ∉ l → splitAllChar c l = [l]
  | [], _ => rfl
  | x :: xs, h => by
    have hx : ¬x = c := fun e => h (e ▸ List.mem_cons_self x xs)
    have hxs : c ∉ xs := fun e => h (List.mem_cons_of_mem x e)
    simp [splitAllChar, hx, splitAllChar_not_mem hxs]

theorem splitAllChar_append {c : Char} :
    ∀ {a : Str} (b : Str), c ∉ a → splitAllChar c (a ++ c :: b) = a :: splitAllChar c b
  | [], b, _ => by
    simp [splitAllChar]
  | x :: xs, b, h => by
    have hx : ¬x = c := fun e => h (e ▸ List.mem_cons_self x xs)
    have hxs : c ∉ xs := fun e => h (List.mem_cons_of_mem x e)
    simp [splitAllChar, hx, splitAllChar_append b hxs]

theorem replaceChar_id {a b : Char} {l : Str} (h : a ∉ l) : replaceChar a b l = l := by
  unfold replaceChar
  induction l with
  | nil => rfl
  | cons x xs ih =>
    have hx : ¬x = a := fun e => h (e ▸ List.mem_cons_self x xs)
    have hxs : a ∉ xs := fun e => h (List.mem_cons_of_mem x e)
    simp [hx, ih hxs]

theorem stripUnsafe_id {l : Str}
    (h : ∀ x ∈ l, (x = Char.ofNat 9 || x = Char.ofNat 13 || x = Char.ofNat 10) = false) :
    stripUnsafeUrlChars l = l := by
  unfold stripUnsafeUrlChars
  rw [List.filter_eq_self]
  intro a ha
  rw [h a ha]
  rfl

theorem unquoteL_cons_ne {c : Char} (rest : Str) (hc : c ≠ '%') :
    unquoteL (c :: rest) = c :: unquoteL rest := by
  cases rest with
  | nil => simp [unquoteL, hc]
  | cons a tail =>
    cases tail with
    | nil => simp [unquoteL, hc]
    | cons b tail2 => simp [unquoteL, hc]

theorem unquoteL_id : ∀ {l : Str}, '%' ∉ l → unquoteL l = l
  | [], _ => rfl
  | x :: xs, h => by
    have hx : x ≠ '%' := fun e => h (e ▸ List.mem_cons_self x xs)
    have hxs : '%' ∉ xs := fun e => h (List.mem_cons_of_mem x e)
    rw [unquoteL_cons_ne xs hx, unquoteL_id hxs]

theorem safe_not_space {c : Char} (h : alwaysSafeChar c = true) : ¬c = ' ' := by
  intro e
  subst e
  simp [alwaysSafeChar] at h

theorem quotePlus_id : ∀ {l : Str}, (∀ x ∈ l, alwaysSafeChar x = true) → quotePlus l = l
  | [], _ => rfl
  | x :: xs, h => by
    have hx := h x (List.mem_cons_self x xs)
    have hxs : ∀ y ∈ xs, alwaysSafeChar y = true := fun y hy => h y (List.mem_cons_of_mem x hy)
    simp [quotePlus, safe_not_space hx, hx, quotePlus_id hxs]

theorem safe_not_mem {s : Str} (hs : ∀ x ∈ s, alwaysSafeChar x = true) {c : Char}
    (hc : alwaysSafeChar c = false) : c ∉ s := fun hm => by
  rw [hs c hm] at hc
  exact Bool.noConfusion hc

theorem hexDigitU_alnum (n : Nat) : (hexDigitU n).isAlphanum = true := by
  unfold hexDigitU
  split
  · next h => interval_cases n <;> decide
  · split
    · next h h2 =>
      have h3 : 10 ≤ n := Nat.le_of_not_lt h
      interval_cases n <;> decide
    · decide

theorem pctEncodeChar_alnum_or_pct {c : Char} {x : Char} (hx : x ∈ pctEncodeChar c) :
    x = '%' ∨ x.isAlphanum = true := by
  unfold pctEncodeChar at hx
  rw [List.mem_flatten] at hx
  obtain ⟨l, hl, hxl⟩ := hx
  rw [List.mem_map] at hl
  obtain ⟨b, _, rfl⟩ := hl
  rcases List.mem_cons.mp hxl with rfl | hxl
  · exact Or.inl rfl
  · rcases List.mem_cons.mp hxl with rfl | hxl
    · exact Or.inr (hexDigitU_alnum _)
    · rcases List.mem_cons.mp hxl with rfl | hxl
      · exact Or.inr (hexDigitU_alnum _)
      · cases hxl

theorem quotePlus_mem {s : Str} {x : Char} (hx : x ∈ quotePlus s) :
    x = '+' ∨ x = '%' ∨ x.isAlphanum = true ∨ alwaysSafeChar x = true := by
  induction s with
  | nil => cases hx
  | cons c rest ih =>
    rw [quotePlus, List.mem_append] at hx
    rcases hx with hx | hx
    · split at hx
      · rw [List.mem_singleton] at hx
        subst hx
        exact Or.inl rfl
      · split at hx
        · next _ hs =>
          rw [List.mem_singleton] at hx
          subst hx
          exact Or.inr (Or.inr (Or.inr hs))
        · rcases pctEncodeChar_alnum_or_pct hx with h | h
          · exact Or.inr (Or.inl h)
          · exact Or.inr (Or.inr (Or.inl h))
    · exact ih hx

theorem pyQuoteEmptySafe_mem {s : Str} {x : Char} (hx : x ∈ pyQuoteEmptySafe s) :
    x = '%' ∨ x.isAlphanum = true ∨ alwaysSafeChar x = true := by
  unfold pyQuoteEmptySafe at hx
  induction s with
  | nil => cases hx
  | cons c rest ih =>
    rw [quoteCore, List.mem_append] at hx
    rcases hx with hx | hx
    · split at hx
      · next hs =>
        rw [List.mem_singleton] at hx
        subst hx
        simp only [Bool.false_or] at hs
        exact Or.inr (Or.inr hs)
      · rcases pctEncodeChar_alnum_or_pct hx with h | h
        · exact Or.inl h
        · exact Or.inr (Or.inl h)
    · exact ih hx

theorem netlocSplit_append :
    ∀ {h : Str} (r : Str), (∀ x ∈ h, (x = '/' || x = '?' || x = '#') = false) →
      (match r with
       | [] => True
       | c :: _ => (c = '/' || c = '?' || c = '#') = true) →
      netlocSplit (h ++ r) = (h, r)
  | [], r, _, hr => by
    cases r with
    | nil => rfl
    | cons c rest =>
      simp only [List.nil_append, netlocSplit]
      rw [if_pos hr]
  | x :: xs, r, hh, hr => by
    have hx := hh x (List.mem_cons_self x xs)
    have hxs : ∀ y ∈ xs, (y = '/' || y = '?' || y = '#') = false :=
      fun y hy => hh y (List.mem_cons_of_mem x hy)
    simp only [List.cons_append, netlocSplit]
    rw [if_neg (by rw [hx]; exact Bool.noConfusion),
      show xs.append r = xs ++ r from rfl, netlocSplit_append r hxs hr]

theorem splitAtLastChar_eq {c : Char} :
    ∀ {l a b : Str}, splitAtLastChar c l = some (a, b) → l = a ++ c :: b
  | [], _, _, h => by cases h
  | x :: xs, a, b, h => by
    rw [splitAtLastChar] at h
    cases hx2 : splitAtLastChar c xs with
    | none =>
      rw [hx2] at h
      by_cases hxc : x = c
      · rw [if_pos hxc] at h
        simp only [Option.some.injEq, Prod.mk.injEq] at h
        obtain ⟨rfl, rfl⟩ := h
        rw [hxc]
        rfl
      · rw [if_neg hxc] at h
        cases h
    | some pr =>
      obtain ⟨a2, b2⟩ := pr
      rw [hx2] at h
      simp only [Option.some.injEq, Prod.mk.injEq] at h
      obtain ⟨rfl, rfl⟩ := h
      rw [List.cons_append, ← splitAtLastChar_eq hx2]

theorem splitParams_no_semi {p : Str} (h : ';' ∉ p) : splitParams p = (p, []) := by
  unfold splitParams
  cases hsl : splitAtLastChar '/' p with
  | none => rw [splitAtChar_not_mem h]
  | some pr =>
    obtain ⟨dir, seg⟩ := pr
    have hps : p = dir ++ '/' :: seg := splitAtLastChar_eq hsl
    have hseg : ';' ∉ seg := fun hm =>
      h (hps ▸ List.mem_append.mpr (Or.inr (List.mem_cons_of_mem _ hm)))
    simp only [splitAtChar_not_mem hseg]

/-- Characters of the three URL component classes are never split
markers. -/
theorem isAlphanum_ne {x c : Char} (hx : x.isAlphanum = true)
    (hc : c.isAlphanum = false) : ¬x = c := fun e => by
  rw [e, hc] at hx
  exact Bool.noConfusion hx

theorem hostChar_not_stop {x : Char} (h : hostChar x = true) :
    (x = '/' || x = '?' || x = '#') = false := by
  simp only [hostChar, Bool.or_eq_true, decide_eq_true_eq] at h
  rcases h with (h | rfl) | rfl
  · simp only [Bool.or_eq_false_iff, decide_eq_false_iff_not]
    exact ⟨⟨isAlphanum_ne h (by decide), isAlphanum_ne h (by decide)⟩,
      isAlphanum_ne h (by decide)⟩
  · decide
  · decide

theorem hostChar_ne {x : Char} (h : hostChar x = true) {c : Char}
    (hc : c.isAlphanum = false) (hc2 : ¬c = '.') (hc3 : ¬c = '-') : x ≠ c := by
  simp only [hostChar, Bool.or_eq_true, decide_eq_true_eq] at h
  rcases h with (h | rfl) | rfl
  · exact isAlphanum_ne h hc
  · exact fun e => hc2 e.symm
  · exact fun e => hc3 e.symm

theorem pathChar_ne {x : Char} (h : pathChar x = true) {c : Char}
    (hc : c.isAlphanum = false) (hc2 : ¬c = '/') (hc3 : ¬c = '.') (hc4 : ¬c = '-')
    (hc5 : ¬c = '_') : x ≠ c := by
  simp only [pathChar, Bool.or_eq_true, decide_eq_true_eq] at h
  rcases h with (((h | rfl) | rfl) | rfl) | rfl
  · exact isAlphanum_ne h hc
  · exact fun e => hc2 e.symm
  · exact fun e => hc3 e.symm
  · exact fun e => hc4 e.symm
  · exact fun e => hc5 e.symm

theorem alwaysSafeChar_ne {x : Char} (h : alwaysSafeChar x = true) {c : Char}
    (hc : c.isAlphanum = false) (hc2 : ¬c = '_') (hc3 : ¬c = '.') (hc4 : ¬c = '-')
    (hc5 : ¬c = '~') : x ≠ c := by
  simp only [alwaysSafeChar, Bool.or_eq_true, decide_eq_true_eq] at h
  rcases h with (((h | rfl) | rfl) | rfl) | rfl
  · exact isAlphanum_ne h hc
  · exact fun e => hc2 e.symm
  · exact fun e => hc3 e.symm
  · exact fun e => hc4 e.symm
  · exact fun e => hc5 e.symm

theorem queryChar_ne {x : Char} (h : queryChar x = true) {c : Char}
    (hc : c.isAlphanum = false) (hc2 : ¬c = '_') (hc3 : ¬c = '.') (hc4 : ¬c = '-')
    (hc5 : ¬c = '~') (hc6 : ¬c = '=') (hc7 : ¬c = '&') : x ≠ c := by
  simp only [queryChar, Bool.or_eq_true, decide_eq_true_eq] at h
  rcases h with (h | rfl) | rfl
  · exact alwaysSafeChar_ne h hc hc2 hc3 hc4 hc5
  · exact fun e => hc6 e.symm
  · exact fun e => hc7 e.symm

/-! ## Claim C1: pagination -/

/-- C1. The claim says `__get_elements` returns the concatenation of all
pages in page order. On the three-page chain the code instead raises:
the follow-up fetch is written `self.__get_json_data(nextLink).json()`,
and `__get_json_data` already returns the parsed JSON dict, which has no
`json` attribute, so the first follow-up page raises AttributeError and
no chain of two or more pages can ever be concatenated. -/
theorem sta_pagination_second_page_raises :
    sta_get_elements envPages 9 (chars "http://s/Datastreams") =
        .error (.attributeError (chars "json")) ∧
      sta_get_elements envPages 9 (chars "http://s/Datastreams") ≠
        .ok (.list [.int 1, .int 2, .int 3, .int 4]) := by
  constructor
  · rfl
  · decide

/-! ## Claim C10: the `error`-key protocol of fetch-by-id -/

/-- C10. `getDatastream` indexes the first response with `error`: when
that key holds None the first response is returned as the record; when it
holds a non-None value the identifier is retried unquoted and whatever
that fetch produces is returned; when the key is absent the lookup raises
KeyError instead of returning the fetched record. So the first-fetched
record is returned exactly when it contains an `error` key mapping to
None. -/
theorem sta_get_datastream_error_key_protocol (env : StaEnv) (client : StaClient)
    (rid : Str) (fs : List (Str × PyVal))
    (hfetch : env.fetch
        (client.url ++ chars "Datastreams" ++ ('(' :: [sq]) ++ rid ++ (sq :: [')'])) =
      some (.dict fs)) :
    (pyLookup (chars "error") fs = some .null →
      staGetDatastream env client rid = .ok (.dict fs)) ∧
    (∀ v : PyVal, pyLookup (chars "error") fs = some v → v ≠ .null →
      staGetDatastream env client rid =
        sta_get_json_data env
          (client.url ++ chars "Datastreams" ++ ['('] ++ rid ++ [')'])) ∧
    (pyLookup (chars "error") fs = none →
      staGetDatastream env client rid = .error (.keyError (chars "error"))) := by
  refine ⟨?_, ?_, ?_⟩
  · intro hl
    unfold staGetDatastream sta_get_by_identifier
    rw [sta_get_json_data_ok hfetch, exceptBind_ok, pyGetItem_dict_some hl,
      exceptBind_ok, if_neg (fun h => h rfl)]
  · intro v hl hv
    unfold staGetDatastream sta_get_by_identifier
    rw [sta_get_json_data_ok hfetch, exceptBind_ok, pyGetItem_dict_some hl,
      exceptBind_ok, if_pos hv]
  · intro hl
    unfold staGetDatastream sta_get_by_identifier
    rw [sta_get_json_data_ok hfetch, exceptBind_ok, pyGetItem_dict_none hl,
      exceptBind_error]

theorem sta_get_datastream_error_key_protocol_witness :
    staGetDatastream envErrKey clientS (chars "A") =
        .ok (.dict [(chars "error", .null), (chars "@iot.id", .str (chars "A"))]) ∧
      staGetDatastream envErrKey clientS (chars "B") =
        .ok (.dict [(chars "@iot.id", .int 7)]) ∧
      staGetDatastream envErrKey clientS (chars "C") =
        .error (.keyError (chars "error")) :=
  ⟨(sta_get_datastream_error_key_protocol envErrKey clientS (chars "A")
      [(chars "error", .null), (chars "@iot.id", .str (chars "A"))]
      (by decide)).1 (by decide),
   by
    rw [(sta_get_datastream_error_key_protocol envErrKey clientS (chars "B")
        [(chars "error", .str (chars "bad id"))] (by decide)).2.1
      (.str (chars "bad id")) (by decide) (by decide)]
    decide,
   (sta_get_datastream_error_key_protocol envErrKey clientS (chars "C")
      [(chars "value", .list [])] (by decide)).2.2 (by decide)⟩

/-! ## Claim C6: version dispatch of the client factories -/

/-- C6. Any version string outside the supported sets (STA: 1.1; SOS:
1.0.0, 2.0.0 and its alias 2.0) makes the factory raise the
unsupported-version error carrying the requested version and the version
strings its message lists, with no client constructed; every supported
version returns a constructed client. The listed version strings include
the canonical supported versions of each family. -/
theorem factory_unsupported_version (v url pb : Str) (cleanOws : Str → Str) :
    (v ≠ chars "1.1" →
      SensorThingsServiceF url v none =
        .error (.unsupportedVersion v [chars "1.0", chars "1.1"])) ∧
    (v ≠ chars "1.1" → url.take 4 = chars "http" →
      SensorThingsServiceF url v (some pb) =
        .error (.unsupportedVersion v [chars "1.0", chars "1.1"])) ∧
    (v ≠ chars "1.0.0" → v ≠ chars "2.0.0" → v ≠ chars "2.0" →
      SensorObservationServiceF cleanOws url v none =
        .error (.unsupportedVersion v [chars "1.0.0", chars "2.0.0"])) ∧
    (url.contains '?' = false →
      SensorThingsServiceF url (chars "1.1") none =
        .ok (url, ⟨url, rstripChar '/' url ++ ['/'], none⟩)) ∧
    ((v = chars "1.0.0" ∨ v = chars "2.0.0" ∨ v = chars "2.0") →
      SensorObservationServiceF cleanOws url v none =
        .ok (cleanOws url, ⟨cleanOws url, v⟩)) ∧
    chars "1.1" ∈ [chars "1.0", chars "1.1"] ∧
    chars "1.0.0" ∈ [chars "1.0.0", chars "2.0.0"] ∧
    chars "2.0.0" ∈ [chars "1.0.0", chars "2.0.0"] := by
  refine ⟨?_, ?_, ?_, ?_, ?_, by decide, by decide, by decide⟩
  · intro hv
    simp only [SensorThingsServiceF, exceptBind_ok, if_neg hv]
  · intro hv hu
    by_cases hpb : pb.isEmpty = true
    · simp only [SensorThingsServiceF, if_pos hpb, exceptBind_ok, if_neg hv]
    · simp only [SensorThingsServiceF, if_neg hpb, get_proxified_sta_url, if_pos hu,
        exceptBind_ok, if_neg hv]
  · intro h1 h2 h3
    simp only [SensorObservationServiceF, if_neg h1,
      if_neg (show ¬(v = chars "2.0.0" ∨ v = chars "2.0") from fun h => h.elim h2 h3)]
  · intro hq
    simp only [SensorThingsServiceF, exceptBind_ok, staClientInit, hq,
      Bool.false_eq_true, if_false, exceptBind_ok]
    simp
  · intro hv
    rcases hv with rfl | rfl | rfl
    · simp only [SensorObservationServiceF]
      simp
    · simp only [SensorObservationServiceF]
      simp
    · simp only [SensorObservationServiceF]
      simp

theorem factory_unsupported_version_witness :
    SensorThingsServiceF (chars "http://s") (chars "3.0") none =
        .error (.unsupportedVersion (chars "3.0") [chars "1.0", chars "1.1"]) ∧
      SensorThingsServiceF (chars "http://s") (chars "3.0") (some (chars "http://pxy/p")) =
        .error (.unsupportedVersion (chars "3.0") [chars "1.0", chars "1.1"]) ∧
      SensorObservationServiceF id (chars "http://s") (chars "3.0") none =
        .error (.unsupportedVersion (chars "3.0") [chars "1.0.0", chars "2.0.0"]) ∧
      SensorThingsServiceF (chars "http://s") (chars "1.1") none =
        .ok (chars "http://s",
          ⟨chars "http://s", rstripChar '/' (chars "http://s") ++ ['/'], none⟩) ∧
      SensorObservationServiceF id (chars "http://s") (chars "2.0") none =
        .ok (id (chars "http://s"), ⟨id (chars "http://s"), chars "2.0"⟩) :=
  ⟨(factory_unsupported_version (chars "3.0") (chars "http://s") (chars "http://pxy/p")
      id).1 (by decide),
   (factory_unsupported_version (chars "3.0") (chars "http://s") (chars "http://pxy/p")
      id).2.1 (by decide) (by decide),
   (factory_unsupported_version (chars "3.0") (chars "http://s") (chars "http://pxy/p")
      id).2.2.1 (by decide) (by decide) (by decide),
   (factory_unsupported_version (chars "3.0") (chars "http://s") (chars "http://pxy/p")
      id).2.2.2.1 (by decide),
   (factory_unsupported_version (chars "2.0") (chars "http://s") (chars "http://pxy/p")
      id).2.2.2.2.1 (Or.inr (Or.inr rfl))⟩

theorem hostChar_not_unsafe {x : Char} (h : hostChar x = true) :
    (x = Char.ofNat 9 || x = Char.ofNat 13 || x = Char.ofNat 10) = false := by
  simp only [Bool.or_eq_false_iff, decide_eq_false_iff_not]
  exact ⟨⟨hostChar_ne h (by decide) (by decide) (by decide),
    hostChar_ne h (by decide) (by decide) (by decide)⟩,
    hostChar_ne h (by decide) (by decide) (by decide)⟩

theorem pathChar_not_unsafe {x : Char} (h : pathChar x = true) :
    (x = Char.ofNat 9 || x = Char.ofNat 13 || x = Char.ofNat 10) = false := by
  simp only [Bool.or_eq_false_iff, decide_eq_false_iff_not]
  exact ⟨⟨pathChar_ne h (by decide) (by decide) (by decide) (by decide) (by decide),
    pathChar_ne h (by decide) (by decide) (by decide) (by decide) (by decide)⟩,
    pathChar_ne h (by decide) (by decide) (by decide) (by decide) (by decide)⟩

theorem queryChar_not_unsafe {x : Char} (h : queryChar x = true) :
    (x = Char.ofNat 9 || x = Char.ofNat 13 || x = Char.ofNat 10) = false := by
  simp only [Bool.or_eq_false_iff, decide_eq_false_iff_not]
  exact ⟨⟨queryChar_ne h (by decide) (by decide) (by decide) (by decide) (by decide)
      (by decide) (by decide),
    queryChar_ne h (by decide) (by decide) (by decide) (by decide) (by decide)
      (by decide) (by decide)⟩,
    queryChar_ne h (by decide) (by decide) (by decide) (by decide) (by decide)
      (by decide) (by decide)⟩

theorem urlsplit_http_form (h p q : Str)
    (hh : ∀ x ∈ h, hostChar x = true)
    (hp : ∀ x ∈ p, pathChar x = true)
    (hp0 : p = [] ∨ p.take 1 = ['/'])
    (hq : ∀ x ∈ q, queryChar x = true) :
    urlsplitCore (chars "http://" ++ h ++ p ++ '?' :: q) =
      (chars "http", h, p, q, []) := by
  rw [List.append_assoc, List.append_assoc]
  have hwhole : ∀ x ∈ chars "http://" ++ (h ++ (p ++ '?' :: q)),
      (x = Char.ofNat 9 || x = Char.ofNat 13 || x = Char.ofNat 10) = false := by
    intro x hx
    rcases List.mem_append.mp hx with hx | hx
    · have : x ∈ ['h', 't', 't', 'p', ':', '/', '/'] := hx
      fin_cases this <;> decide
    · rcases List.mem_append.mp hx with hx | hx
      · exact hostChar_not_unsafe (hh x hx)
      · rcases List.mem_append.mp hx with hx | hx
        · exact pathChar_not_unsafe (hp x hx)
        · rcases List.mem_cons.mp hx with rfl | hx
          · decide
          · exact queryChar_not_unsafe (hq x hx)
  have hsplit : splitAtChar ':' (chars "http://" ++ (h ++ (p ++ '?' :: q))) =
      some (chars "http", '/' :: '/' :: (h ++ (p ++ '?' :: q))) := by
    show splitAtChar ':'
        ('h' :: 't' :: 't' :: 'p' :: ':' :: '/' :: '/' :: (h ++ (p ++ '?' :: q))) = _
    simp [splitAtChar]
    rfl
  have hnet : netlocSplit (h ++ (p ++ '?' :: q)) = (h, p ++ '?' :: q) := by
    apply netlocSplit_append _ (fun x hx => hostChar_not_stop (hh x hx))
    rcases hp0 with rfl | hp1
    · simp
    · cases p with
      | nil => cases hp1
      | cons c rest =>
        simp only [List.take, List.cons.injEq] at hp1
        obtain ⟨rfl, -⟩ := hp1
        simp
  have hnohash : '#' ∉ p ++ '?' :: q := by
    intro hm
    rcases List.mem_append.mp hm with hm | hm
    · exact pathChar_ne (hp _ hm) (by decide) (by decide) (by decide) (by decide)
        (by decide) rfl
    · rcases List.mem_cons.mp hm with he | hm
      · cases he
      · exact queryChar_ne (hq _ hm) (by decide) (by decide) (by decide) (by decide)
          (by decide) (by decide) (by decide) rfl
  have hnoq : '?' ∉ p := fun hm =>
    pathChar_ne (hp _ hm) (by decide) (by decide) (by decide) (by decide) (by decide) rfl
  have hcond : (!List.isEmpty (chars "http") && List.all (chars "http") schemeChar) = true := by
    decide
  have hlow : List.map lowerChar (chars "http") = chars "http" := by decide
  unfold urlsplitCore
  simp only [stripUnsafe_id hwhole, hsplit, hcond, if_true, hlow, List.take_succ_cons,
    List.take_zero, List.drop_succ_cons, List.drop_zero, hnet,
    splitAtChar_not_mem hnohash, splitAtChar_append q hnoq, if_pos rfl]

theorem no_semi_of_path {p : Str} (hp : ∀ x ∈ p, pathChar x = true) : ';' ∉ p := fun hm =>
  pathChar_ne (hp _ hm) (by decide) (by decide) (by decide) (by decide) (by decide) rfl

theorem urlparse_http_form (h p q : Str)
    (hh : ∀ x ∈ h, hostChar x = true)
    (hp : ∀ x ∈ p, pathChar x = true)
    (hp0 : p = [] ∨ p.take 1 = ['/'])
    (hq : ∀ x ∈ q, queryChar x = true) :
    urlparse (chars "http://" ++ h ++ p ++ '?' :: q) =
      ⟨chars "http", h, p, [], q, []⟩ := by
  unfold urlparse
  rw [urlsplit_http_form h p q hh hp hp0 hq]
  simp only [splitParams_no_semi (no_semi_of_path hp)]

theorem urlsplit_http_form_nq (h p : Str)
    (hh : ∀ x ∈ h, hostChar x = true)
    (hp : ∀ x ∈ p, pathChar x = true)
    (hp0 : p = [] ∨ p.take 1 = ['/']) :
    urlsplitCore (chars "http://" ++ h ++ p) = (chars "http", h, p, [], []) := by
  rw [List.append_assoc]
  have hwhole : ∀ x ∈ chars "http://" ++ (h ++ p),
      (x = Char.ofNat 9 || x = Char.ofNat 13 || x = Char.ofNat 10) = false := by
    intro x hx
    rcases List.mem_append.mp hx with hx | hx
    · have : x ∈ ['h', 't', 't', 'p', ':', '/', '/'] := hx
      fin_cases this <;> decide
    · rcases List.mem_append.mp hx with hx | hx
      · exact hostChar_not_unsafe (hh x hx)
      · exact pathChar_not_unsafe (hp x hx)
  have hsplit : splitAtChar ':' (chars "http://" ++ (h ++ p)) =
      some (chars "http", '/' :: '/' :: (h ++ p)) := by
    show splitAtChar ':' ('h' :: 't' :: 't' :: 'p' :: ':' :: '/' :: '/' :: (h ++ p)) = _
    simp [splitAtChar]
    rfl
  have hnet : netlocSplit (h ++ p) = (h, p) := by
    apply netlocSplit_append _ (fun x hx => hostChar_not_stop (hh x hx))
    rcases hp0 with rfl | hp1
    · simp
    · cases p with
      | nil => simp
      | cons c rest =>
        simp only [List.take, List.cons.injEq] at hp1
        obtain ⟨rfl, -⟩ := hp1
        simp
  have hnohash : '#' ∉ p := fun hm =>
    pathChar_ne (hp _ hm) (by decide) (by decide) (by decide) (by decide) (by decide) rfl
  have hnoq : '?' ∉ p := fun hm =>
    pathChar_ne (hp _ hm) (by decide) (by decide) (by decide) (by decide) (by decide) rfl
  have hcond : (!List.isEmpty (chars "http") && List.all (chars "http") schemeChar) = true := by
    decide
  have hlow : List.map lowerChar (chars "http") = chars "http" := by decide
  unfold urlsplitCore
  simp only [stripUnsafe_id hwhole, hsplit, hcond, if_true, hlow, List.take_succ_cons,
    List.take_zero, List.drop_succ_cons, List.drop_zero, hnet,
    splitAtChar_not_mem hnohash, splitAtChar_not_mem hnoq, if_pos rfl]

theorem urlparse_http_form_nq (h p : Str)
    (hh : ∀ x ∈ h, hostChar x = true)
    (hp : ∀ x ∈ p, pathChar x = true)
    (hp0 : p = [] ∨ p.take 1 = ['/']) :
    urlparse (chars "http://" ++ h ++ p) = ⟨chars "http", h, p, [], [], []⟩ := by
  unfold urlparse
  rw [urlsplit_http_form_nq h p hh hp hp0]
  simp only [splitParams_no_semi (no_semi_of_path hp)]

theorem urlunparse_http_form (h p q : Str) (hne : h ≠ [])
    (hp0 : p = [] ∨ p.take 1 = ['/']) :
    urlunparse ⟨chars "http", h, p, [], q, []⟩ =
      chars "http://" ++ h ++ p ++ (if q.isEmpty then [] else '?' :: q) := by
  have hhe : h.isEmpty = false := by
    cases h with
    | nil => exact absurd rfl hne
    | cons a b => rfl
  unfold urlunparse urlunsplitCore
  simp only [List.isEmpty_nil, Bool.not_true, Bool.false_eq_true, if_false, hhe,
    Bool.not_false, if_true, Bool.true_eq_false]
  rcases hp0 with rfl | hp1
  · cases hqe : q.isEmpty with
    | true =>
      rw [List.isEmpty_iff] at hqe
      subst hqe
      simp [if_neg (show ¬chars "http" = [] by decide)]
      rfl
    | false =>
      simp only [List.isEmpty_nil, Bool.not_true, Bool.false_and, Bool.false_eq_true,
        if_false, hqe]
      simp [if_neg (show ¬chars "http" = [] by decide), List.append_assoc]
      rfl
  · cases p with
    | nil => cases hp1
    | cons c rest =>
      simp only [List.take, List.cons.injEq] at hp1
      obtain ⟨rfl, -⟩ := hp1
      have hcnd : (!List.isEmpty ('/' :: rest) &&
          decide (List.take 1 ('/' :: rest) ≠ ['/'])) = false := by
        simp
      rw [hcnd]
      simp only [Bool.false_eq_true, if_false]
      cases hqe : q.isEmpty with
      | true =>
        rw [List.isEmpty_iff] at hqe
        subst hqe
        simp [if_neg (show ¬chars "http" = [] by decide), List.append_assoc]
        rfl
      | false =>
        simp only [hqe, Bool.false_eq_true, if_false]
        simp [if_neg (show ¬chars "http" = [] by decide), List.append_assoc]
        rfl

theorem pyQuoteEmptySafe_no_qmark {s : Str} : '?' ∉ pyQuoteEmptySafe s := by
  intro hm
  rcases pyQuoteEmptySafe_mem hm with he | he | he
  · cases he
  · cases he
  · cases he

theorem baseNoQuery_mkHttpUrl (h p q : Str)
    (hne : h ≠ [])
    (hh : ∀ x ∈ h, hostChar x = true)
    (hp : ∀ x ∈ p, pathChar x = true)
    (hp0 : p = [] ∨ p.take 1 = ['/'])
    (hq : ∀ x ∈ q, queryChar x = true) :
    baseNoQuery (mkHttpUrl h p q) = mkHttpUrlNq h p := by
  unfold baseNoQuery mkHttpUrl
  rw [urlparse_http_form h p q hh hp hp0 hq]
  simp only
  rw [urlunparse_http_form h p [] hne hp0]
  simp [mkHttpUrlNq]

theorem baseNoQuery_mkHttpUrlNq (h p : Str)
    (hne : h ≠ [])
    (hh : ∀ x ∈ h, hostChar x = true)
    (hp : ∀ x ∈ p, pathChar x = true)
    (hp0 : p = [] ∨ p.take 1 = ['/']) :
    baseNoQuery (mkHttpUrlNq h p) = mkHttpUrlNq h p := by
  unfold baseNoQuery mkHttpUrlNq
  rw [urlparse_http_form_nq h p hh hp hp0]
  simp only
  rw [urlunparse_http_form h p [] hne hp0]
  simp [mkHttpUrlNq]

theorem staClientInit_proxified (pb rest : Str) (hpb : '?' ∉ pb) (hrest : '?' ∉ rest) :
    staClientInit (pb ++ '?' :: rest) = .ok ⟨pb ++ '?' :: rest, pb, some rest⟩ := by
  have hmem : '?' ∈ pb ++ '?' :: rest :=
    List.mem_append.mpr (Or.inr (List.mem_cons_self _ _))
  have hcont : (pb ++ '?' :: rest).contains '?' = true := by
    exact List.elem_iff.mpr hmem
  unfold staClientInit
  rw [hcont]
  simp only [if_true, splitAllChar_append rest hpb, splitAllChar_not_mem hrest]

theorem proxified_sta_shape (pb Q : Str) :
    pb ++ chars "?url=" ++ Q = pb ++ '?' :: (chars "url=" ++ Q) := by
  rw [List.append_assoc]
  rfl

theorem no_qmark_url_piece (Q : Str) (hQ : '?' ∉ Q) : '?' ∉ chars "url=" ++ Q := by
  intro hm
  rcases List.mem_append.mp hm with hm | hm
  · exact absurd hm (by decide)
  · exact hQ hm

/-- C7. Effective base URLs of the factories. Without a proxy both
factories bind the client to the canonical URL (for STA the URL itself,
for SOS the cleaned URL) and return that same URL as the effective base.
With a proxy the client is bound to the proxy-rewritten URL while the
returned effective base is the base form of the original URL (its query
dropped; equal to the original whenever the URL has no query), computed
from the original URL alone, so the proxy base never appears in it. -/
theorem factory_effective_base_url (h p q url pb : Str) (cleanOws : Str → Str)
    (hne : h ≠ [])
    (hh : ∀ x ∈ h, hostChar x = true)
    (hp : ∀ x ∈ p, pathChar x = true)
    (hp0 : p = [] ∨ p.take 1 = ['/'])
    (hq : ∀ x ∈ q, queryChar x = true)
    (hpb : '?' ∉ pb) (hpbne : pb ≠ []) :
    (url.contains '?' = false →
      SensorThingsServiceF url (chars "1.1") none =
        .ok (url, ⟨url, rstripChar '/' url ++ ['/'], none⟩)) ∧
    (∀ v, (v = chars "1.0.0" ∨ v = chars "2.0.0" ∨ v = chars "2.0") →
      SensorObservationServiceF cleanOws url v none =
        .ok (cleanOws url, ⟨cleanOws url, v⟩)) ∧
    (SensorThingsServiceF (mkHttpUrl h p q) (chars "1.1") (some pb) =
      .ok (mkHttpUrlNq h p,
        ⟨pb ++ '?' :: (chars "url=" ++ pyQuoteEmptySafe (mkHttpUrlNq h p)), pb,
          some (chars "url=" ++ pyQuoteEmptySafe (mkHttpUrlNq h p))⟩)) ∧
    (SensorThingsServiceF (mkHttpUrlNq h p) (chars "1.1") (some pb) =
      .ok (mkHttpUrlNq h p,
        ⟨pb ++ '?' :: (chars "url=" ++ pyQuoteEmptySafe (mkHttpUrlNq h p)), pb,
          some (chars "url=" ++ pyQuoteEmptySafe (mkHttpUrlNq h p))⟩)) ∧
    (∀ v, (v = chars "1.0.0" ∨ v = chars "2.0.0" ∨ v = chars "2.0") →
      SensorObservationServiceF cleanOws (mkHttpUrl h p q) v (some pb) =
        .ok (mkHttpUrlNq h p,
          ⟨pb ++ chars "?url=" ++ pyQuoteEmptySafe (mkHttpUrlNq h p), v⟩)) := by
  have hpbe : pb.isEmpty = false := by
    cases pb with
    | nil => exact absurd rfl hpbne
    | cons a b => rfl
  have hbase := baseNoQuery_mkHttpUrl h p q hne hh hp hp0 hq
  have hbasenq := baseNoQuery_mkHttpUrlNq h p hne hh hp hp0
  have hinit := staClientInit_proxified pb
    (chars "url=" ++ pyQuoteEmptySafe (mkHttpUrlNq h p)) hpb
    (no_qmark_url_piece _ pyQuoteEmptySafe_no_qmark)
  refine ⟨?_, ?_, ?_, ?_, ?_⟩
  · intro hq0
    simp only [SensorThingsServiceF, exceptBind_ok, staClientInit, hq0,
      Bool.false_eq_true, if_false, exceptBind_ok]
    simp
  · intro v hv
    rcases hv with rfl | rfl | rfl <;> (simp only [SensorObservationServiceF]; simp)
  · have htake : (mkHttpUrl h p q).take 4 = chars "http" := rfl
    simp only [SensorThingsServiceF, hpbe, Bool.false_eq_true, if_false,
      get_proxified_sta_url, if_pos htake, hbase, exceptBind_ok, if_pos rfl,
      proxified_sta_shape, hinit, exceptBind_ok]
    rw [if_pos trivial]
  · have htake : (mkHttpUrlNq h p).take 4 = chars "http" := rfl
    simp only [SensorThingsServiceF, hpbe, Bool.false_eq_true, if_false,
      get_proxified_sta_url, if_pos htake, hbasenq, exceptBind_ok, if_pos rfl,
      proxified_sta_shape, hinit, exceptBind_ok]
    rw [if_pos trivial]
  · intro v hv
    have htake : (mkHttpUrl h p q).take 4 = chars "http" := rfl
    rcases hv with rfl | rfl | rfl <;>
      (simp only [SensorObservationServiceF, hpbe, Bool.false_eq_true, if_false,
        get_proxified_ows_url, hbase]
       simp)

theorem factory_effective_base_url_witness :
    SensorThingsServiceF (chars "http://s") (chars "1.1") none =
        .ok (chars "http://s",
          ⟨chars "http://s", rstripChar '/' (chars "http://s") ++ ['/'], none⟩) ∧
      SensorObservationServiceF id (chars "http://s") (chars "2.0.0") none =
        .ok (id (chars "http://s"), ⟨id (chars "http://s"), chars "2.0.0"⟩) ∧
      SensorThingsServiceF (mkHttpUrl (chars "s") (chars "/a") (chars "b=2"))
          (chars "1.1") (some (chars "http://x/proxy")) =
        .ok (mkHttpUrlNq (chars "s") (chars "/a"),
          ⟨chars "http://x/proxy" ++ '?' ::
              (chars "url=" ++ pyQuoteEmptySafe (mkHttpUrlNq (chars "s") (chars "/a"))),
            chars "http://x/proxy",
            some (chars "url=" ++
              pyQuoteEmptySafe (mkHttpUrlNq (chars "s") (chars "/a")))⟩) ∧
      SensorObservationServiceF id (mkHttpUrl (chars "s") (chars "/a") (chars "b=2"))
          (chars "2.0.0") (some (chars "http://x/proxy")) =
        .ok (mkHttpUrlNq (chars "s") (chars "/a"),
          ⟨chars "http://x/proxy" ++ chars "?url=" ++
              pyQuoteEmptySafe (mkHttpUrlNq (chars "s") (chars "/a")),
            chars "2.0.0"⟩) := by
  have T := factory_effective_base_url (chars "s") (chars "/a") (chars "b=2")
    (chars "http://s") (chars "http://x/proxy") id (by decide) (by decide) (by decide)
    (Or.inr (by decide)) (by decide) (by decide) (by decide)
  exact ⟨T.1 (by decide), T.2.1 (chars "2.0.0") (Or.inr (Or.inl rfl)), T.2.2.1,
    T.2.2.2.2 (chars "2.0.0") (Or.inr (Or.inl rfl))⟩

theorem parseQsl_chunk_cons (k v rest : Str)
    (hk : ∀ x ∈ k, alwaysSafeChar x = true)
    (hv : ∀ x ∈ v, alwaysSafeChar x = true) (hvne : v ≠ []) :
    parseQsl ((k ++ '=' :: v) ++ '&' :: rest) = (k, v) :: parseQsl rest := by
  have hamp : '&' ∉ k ++ '=' :: v := by
    intro hm
    rcases List.mem_append.mp hm with hm | hm
    · exact alwaysSafeChar_ne (hk _ hm) (by decide) (by decide) (by decide) (by decide)
        (by decide) rfl
    · rcases List.mem_cons.mp hm with he | hm
      · cases he
      · exact alwaysSafeChar_ne (hv _ hm) (by decide) (by decide) (by decide) (by decide)
          (by decide) rfl
  have heq : '=' ∉ k := fun hm =>
    alwaysSafeChar_ne (hk _ hm) (by decide) (by decide) (by decide) (by decide)
      (by decide) rfl
  have hplusk : '+' ∉ k := fun hm =>
    alwaysSafeChar_ne (hk _ hm) (by decide) (by decide) (by decide) (by decide)
      (by decide) rfl
  have hpctk : '%' ∉ k := fun hm =>
    alwaysSafeChar_ne (hk _ hm) (by decide) (by decide) (by decide) (by decide)
      (by decide) rfl
  have hplusv : '+' ∉ v := fun hm =>
    alwaysSafeChar_ne (hv _ hm) (by decide) (by decide) (by decide) (by decide)
      (by decide) rfl
  have hpctv : '%' ∉ v := fun hm =>
    alwaysSafeChar_ne (hv _ hm) (by decide) (by decide) (by decide) (by decide)
      (by decide) rfl
  have hchne : ¬(k ++ '=' :: v) = [] := by simp
  unfold parseQsl
  rw [splitAllChar_append _ hamp]
  rw [List.foldr_cons]
  rw [if_neg hchne, splitAtChar_append v heq]
  simp only [if_neg hvne, replaceChar_id hplusk, replaceChar_id hplusv,
    unquoteL_id hpctk, unquoteL_id hpctv]

theorem parseQsl_chunk_single (k v : Str)
    (hk : ∀ x ∈ k, alwaysSafeChar x = true)
    (hv : ∀ x ∈ v, alwaysSafeChar x = true) (hvne : v ≠ []) :
    parseQsl (k ++ '=' :: v) = [(k, v)] := by
  have hamp : '&' ∉ k ++ '=' :: v := by
    intro hm
    rcases List.mem_append.mp hm with hm | hm
    · exact alwaysSafeChar_ne (hk _ hm) (by decide) (by decide) (by decide) (by decide)
        (by decide) rfl
    · rcases List.mem_cons.mp hm with he | hm
      · cases he
      · exact alwaysSafeChar_ne (hv _ hm) (by decide) (by decide) (by decide) (by decide)
          (by decide) rfl
  have heq : '=' ∉ k := fun hm =>
    alwaysSafeChar_ne (hk _ hm) (by decide) (by decide) (by decide) (by decide)
      (by decide) rfl
  have hplusk : '+' ∉ k := fun hm =>
    alwaysSafeChar_ne (hk _ hm) (by decide) (by decide) (by decide) (by decide)
      (by decide) rfl
  have hpctk : '%' ∉ k := fun hm =>
    alwaysSafeChar_ne (hk _ hm) (by decide) (by decide) (by decide) (by decide)
      (by decide) rfl
  have hplusv : '+' ∉ v := fun hm =>
    alwaysSafeChar_ne (hv _ hm) (by decide) (by decide) (by decide) (by decide)
      (by decide) rfl
  have hpctv : '%' ∉ v := fun hm =>
    alwaysSafeChar_ne (hv _ hm) (by decide) (by decide) (by decide) (by decide)
      (by decide) rfl
  have hchne : ¬(k ++ '=' :: v) = [] := by simp
  unfold parseQsl
  rw [splitAllChar_not_mem hamp]
  rw [List.foldr_cons, List.foldr_nil]
  rw [if_neg hchne, splitAtChar_append v heq]
  simp only [if_neg hvne, replaceChar_id hplusk, replaceChar_id hplusv,
    unquoteL_id hpctk, unquoteL_id hpctv]

theorem urlencodePairs_cons (pr : Str × Str) (ps : List (Str × Str)) (hne : ps ≠ []) :
    urlencodePairs (pr :: ps) =
      (quotePlus pr.1 ++ '=' :: quotePlus pr.2) ++ '&' :: urlencodePairs ps := by
  cases ps with
  | nil => exact absurd rfl hne
  | cons x xs => rfl

theorem parseQsl_urlencode :
    ∀ {ps : List (Str × Str)}, safePairs ps → parseQsl (urlencodePairs ps) = ps
  | [], _ => rfl
  | pr :: ps, hs => by
    obtain ⟨hk, hv, hvne⟩ := hs pr (List.mem_cons_self pr ps)
    have hs2 : safePairs ps := fun x hx => hs x (List.mem_cons_of_mem pr hx)
    cases hps : ps with
    | nil =>
      show parseQsl (intercalateChar '&' [quotePlus pr.1 ++ '=' :: quotePlus pr.2]) = _
      show parseQsl (quotePlus pr.1 ++ '=' :: quotePlus pr.2) = _
      rw [quotePlus_id hk, quotePlus_id hv, parseQsl_chunk_single pr.1 pr.2 hk hv hvne]
    | cons x xs =>
      rw [← hps]
      rw [urlencodePairs_cons pr ps (by rw [hps]; exact List.cons_ne_nil x xs)]
      rw [quotePlus_id hk, quotePlus_id hv]
      rw [parseQsl_chunk_cons pr.1 pr.2 _ hk hv hvne, parseQsl_urlencode hs2]

theorem dictHasKey_false {d : List (Str × Str)} {k : Str}
    (h : ∀ pr ∈ d, ¬pr.1 = k) : dictHasKey d k = false := by
  unfold dictHasKey
  rw [List.any_eq_false]
  intro pr hpr
  simpa using h pr hpr

theorem dictFind_none_of {d : List (Str × Str)} {k : Str}
    (h : ∀ pr ∈ d, ¬pr.1 = k) : dictFind d k = none := by
  unfold dictFind
  rw [List.find?_eq_none.mpr (fun pr hpr => by simpa using h pr hpr)]
  rfl

theorem dictRemove_id {d : List (Str × Str)} {k : Str}
    (h : ∀ pr ∈ d, ¬pr.1 = k) : dictRemove d k = d := by
  unfold dictRemove
  rw [List.filter_eq_self]
  intro pr hpr
  simpa using h pr hpr

theorem condRemove_eq (d : List (Str × Str)) (k : Str) :
    (if dictHasKey d k then dictRemove d k else d) = dictRemove d k := by
  cases hc : dictHasKey d k with
  | true => rw [if_pos rfl]
  | false =>
    rw [if_neg (fun h2 => Bool.noConfusion h2)]
    unfold dictHasKey at hc
    rw [List.any_eq_false] at hc
    exact (dictRemove_id (fun pr hpr => by simpa using hc pr hpr)).symm

theorem dictFind_remove_ne {d : List (Str × Str)} {k k2 : Str} (hne : ¬k = k2) :
    dictFind (dictRemove d k) k2 = dictFind d k2 := by
  induction d with
  | nil => rfl
  | cons pr rest ih =>
    unfold dictRemove dictFind at ih ⊢
    by_cases hpk : pr.1 = k
    · have h1 : (!(pr.1 == k)) = false := by simp [hpk]
      have h2 : (pr.1 == k2) = false := by
        simp only [beq_eq_false_iff_ne, ne_eq, hpk]
        exact hne
      simp only [List.filter_cons, h1, Bool.false_eq_true, if_false, List.find?_cons, h2]
      exact ih
    · have h1 : (!(pr.1 == k)) = true := by simp [hpk]
      simp only [List.filter_cons, h1, if_true, List.find?_cons]
      cases h2 : pr.1 == k2 with
      | true => rfl
      | false => exact ih

theorem dictSet_new {d : List (Str × Str)} {k v : Str}
    (h : ∀ pr ∈ d, ¬pr.1 = k) : dictSet d k v = d ++ [(k, v)] := by
  unfold dictSet
  rw [if_neg]
  rw [show (d.any fun p => p.1 == k) = dictHasKey d k from rfl, dictHasKey_false h]
  exact Bool.noConfusion

theorem dictOfPairs_aux (ps : List (Str × Str)) :
    ∀ acc : List (Str × Str), (ps.map Prod.fst).Nodup →
      (∀ pr ∈ ps, ∀ pr2 ∈ acc, ¬pr2.1 = pr.1) →
      ps.foldl (fun d pr => dictSet d pr.1 pr.2) acc = acc ++ ps := by
  induction ps with
  | nil =>
    intro acc _ _
    rw [List.foldl_nil, List.append_nil]
  | cons pr rest ih =>
    intro acc hnodup hdis
    rw [List.foldl_cons]
    rw [dictSet_new (fun pr2 h2 => hdis pr (List.mem_cons_self pr rest) pr2 h2)]
    rw [List.map_cons, List.nodup_cons] at hnodup
    rw [ih (acc ++ [(pr.1, pr.2)]) hnodup.2]
    · rw [List.append_assoc]
      rfl
    · intro pr3 h3 pr2 h2
      rcases List.mem_append.mp h2 with h2 | h2
      · exact hdis pr3 (List.mem_cons_of_mem pr h3) pr2 h2
      · rw [List.mem_singleton] at h2
        subst h2
        intro he
        exact hnodup.1 (he ▸ List.mem_map_of_mem Prod.fst h3)

theorem dictOfPairs_eq_self {ps : List (Str × Str)}
    (h : (ps.map Prod.fst).Nodup) : dictOfPairs ps = ps := by
  unfold dictOfPairs
  rw [dictOfPairs_aux ps [] h (fun _ _ _ h2 => absurd h2 (List.not_mem_nil _))]
  rfl

theorem intercalateChar_mem {c x : Char} :
    ∀ {ls : List Str}, x ∈ intercalateChar c ls → x = c ∨ ∃ l, l ∈ ls ∧ x ∈ l
  | [], h => absurd h (List.not_mem_nil x)
  | [l], h => Or.inr ⟨l, List.mem_singleton.mpr rfl, h⟩
  | l :: l2 :: ls, h => by
    rw [show intercalateChar c (l :: l2 :: ls) = l ++ c :: intercalateChar c (l2 :: ls)
      from rfl] at h
    rcases List.mem_append.mp h with h | h
    · exact Or.inr ⟨l, List.mem_cons_self l _, h⟩
    · rcases List.mem_cons.mp h with rfl | h
      · exact Or.inl rfl
      · rcases intercalateChar_mem h with h | ⟨l3, h3, hx⟩
        · exact Or.inl h
        · exact Or.inr ⟨l3, List.mem_cons_of_mem _ h3, hx⟩

theorem urlencodePairs_mem_queryChar {ps : List (Str × Str)} (hs : safePairs ps)
    {x : Char} (hx : x ∈ urlencodePairs ps) : queryChar x = true := by
  unfold urlencodePairs at hx
  rcases intercalateChar_mem hx with rfl | ⟨l, hl, hxl⟩
  · decide
  · rw [List.mem_map] at hl
    obtain ⟨pr, hpr, rfl⟩ := hl
    obtain ⟨hk, hv, -⟩ := hs pr hpr
    rw [quotePlus_id hk, quotePlus_id hv] at hxl
    rcases List.mem_append.mp hxl with hm | hm
    · simp [queryChar, hk x hm]
    · rcases List.mem_cons.mp hm with rfl | hm
      · decide
      · simp [queryChar, hv x hm]

theorem urlencodePairs_ne_nil {pr : Str × Str} {ps : List (Str × Str)} :
    urlencodePairs (pr :: ps) ≠ [] := by
  cases ps with
  | nil =>
    show quotePlus pr.1 ++ '=' :: quotePlus pr.2 ≠ []
    simp
  | cons x xs =>
    rw [urlencodePairs_cons pr (x :: xs) (List.cons_ne_nil x xs)]
    simp

theorem safePairs_filter {ps : List (Str × Str)} (hs : safePairs ps)
    (f : Str × Str → Bool) : safePairs (ps.filter f) := fun pr hpr =>
  hs pr (List.mem_of_mem_filter hpr)

theorem mkHttpUrl_no_pct (h p q : Str)
    (hh : ∀ x ∈ h, hostChar x = true)
    (hp : ∀ x ∈ p, pathChar x = true)
    (hq : ∀ x ∈ q, queryChar x = true) :
    '%' ∉ mkHttpUrl h p q := by
  intro hm
  unfold mkHttpUrl at hm
  rw [List.append_assoc, List.append_assoc] at hm
  rcases List.mem_append.mp hm with hm | hm
  · exact absurd hm (by decide)
  · rcases List.mem_append.mp hm with hm | hm
    · exact hostChar_ne (hh _ hm) (by decide) (by decide) (by decide) rfl
    · rcases List.mem_append.mp hm with hm | hm
      · exact pathChar_ne (hp _ hm) (by decide) (by decide) (by decide) (by decide)
          (by decide) rfl
      · rcases List.mem_cons.mp hm with he | hm
        · cases he
        · exact queryChar_ne (hq _ hm) (by decide) (by decide) (by decide) (by decide)
            (by decide) (by decide) (by decide) rfl

theorem ne_nil_isEmpty_false {l : Str} (h : l ≠ []) : l.isEmpty = false := by
  cases l with
  | nil => exact absurd rfl h
  | cons a b => rfl

theorem safePairs_dictRemove {ps : List (Str × Str)} (hs : safePairs ps) (k : Str) :
    safePairs (dictRemove ps k) := fun pr hpr =>
  hs pr (List.mem_of_mem_filter hpr)

/-- C8 (amended). The cleaner removes exactly the decoded query
parameters named version, service and request, returning their values
separately with version defaulting to 2.0.0, and re-encodes the rest in
order; cleaning is stable on URLs whose parameter names and values
consist of characters the re-encoder leaves unchanged. (Stability fails
in general: see the counterexample.) -/
theorem cleaned_url_params_exact (h p : Str) (pairs : List (Str × Str))
    (hne : h ≠ [])
    (hh : ∀ x ∈ h, hostChar x = true)
    (hp : ∀ x ∈ p, pathChar x = true)
    (hp0 : p = [] ∨ p.take 1 = ['/'])
    (hsafe : safePairs pairs)
    (hnodup : (pairs.map Prod.fst).Nodup) :
    (parseQsl (get_cleaned_url_params
        (mkHttpUrl h p (urlencodePairs pairs))).newUrl.query =
      stripReservedKeys pairs) ∧
    ((get_cleaned_url_params (mkHttpUrl h p (urlencodePairs pairs))).version =
      (match dictFind pairs (chars "version") with
       | some w => w
       | none => chars "2.0.0")) ∧
    ((get_cleaned_url_params (mkHttpUrl h p (urlencodePairs pairs))).service =
      dictFind pairs (chars "service")) ∧
    ((get_cleaned_url_params (mkHttpUrl h p (urlencodePairs pairs))).request =
      dictFind pairs (chars "request")) ∧
    ((∀ pr ∈ pairs, ¬pr.1 = chars "version" ∧ ¬pr.1 = chars "service" ∧
        ¬pr.1 = chars "request") → pairs ≠ [] →
      cleanedUrlString (mkHttpUrl h p (urlencodePairs pairs)) =
        mkHttpUrl h p (urlencodePairs pairs)) ∧
    ((∀ pr ∈ pairs, ¬pr.1 = chars "version" ∧ ¬pr.1 = chars "service" ∧
        ¬pr.1 = chars "request") → pairs ≠ [] →
      cleanedUrlString (cleanedUrlString (mkHttpUrl h p (urlencodePairs pairs))) =
        cleanedUrlString (mkHttpUrl h p (urlencodePairs pairs))) := by
  have hq : ∀ x ∈ urlencodePairs pairs, queryChar x = true := fun x hx =>
    urlencodePairs_mem_queryChar hsafe hx
  have hunq : unquoteL (mkHttpUrl h p (urlencodePairs pairs)) =
      mkHttpUrl h p (urlencodePairs pairs) :=
    unquoteL_id (mkHttpUrl_no_pct h p (urlencodePairs pairs) hh hp hq)
  have hparse : urlparse (mkHttpUrl h p (urlencodePairs pairs)) =
      ⟨chars "http", h, p, [], urlencodePairs pairs, []⟩ := by
    unfold mkHttpUrl
    exact urlparse_http_form h p (urlencodePairs pairs) hh hp hp0 hq
  have hred : get_cleaned_url_params (mkHttpUrl h p (urlencodePairs pairs)) =
      ⟨⟨chars "http", h, p, [],
        urlencodePairs (dictRemove (dictRemove (dictRemove pairs (chars "version"))
          (chars "service")) (chars "request")), []⟩,
        dictFind (dictRemove pairs (chars "version")) (chars "service"),
        (match dictFind pairs (chars "version") with
         | some w => w
         | none => chars "2.0.0"),
        dictFind (dictRemove (dictRemove pairs (chars "version")) (chars "service"))
          (chars "request")⟩ := by
    unfold get_cleaned_url_params
    simp only [hunq, hparse, parseQsl_urlencode hsafe, dictOfPairs_eq_self hnodup,
      condRemove_eq]
  have hd3 : dictRemove (dictRemove (dictRemove pairs (chars "version"))
      (chars "service")) (chars "request") = stripReservedKeys pairs := by
    unfold dictRemove stripReservedKeys
    rw [List.filter_filter, List.filter_filter]
    apply List.filter_congr
    intro pr _
    cases h1 : pr.1 == chars "version" <;> cases h2 : pr.1 == chars "service" <;>
      cases h3 : pr.1 == chars "request" <;> simp [h1, h2, h3]
  refine ⟨?_, ?_, ?_, ?_, ?_, ?_⟩
  · rw [hred]
    show parseQsl (urlencodePairs _) = _
    rw [parseQsl_urlencode (by
      rw [hd3]
      unfold stripReservedKeys
      exact safePairs_filter hsafe _), hd3]
  · rw [hred]
  · rw [hred]
    show dictFind (dictRemove pairs (chars "version")) (chars "service") = _
    exact dictFind_remove_ne (by decide)
  · rw [hred]
    show dictFind (dictRemove (dictRemove pairs (chars "version")) (chars "service"))
        (chars "request") = _
    rw [dictFind_remove_ne (by decide), dictFind_remove_ne (by decide)]
  · intro hnok hpne
    have hid1 : dictRemove pairs (chars "version") = pairs :=
      dictRemove_id (fun pr hpr => (hnok pr hpr).1)
    have hid2 : dictRemove pairs (chars "service") = pairs :=
      dictRemove_id (fun pr hpr => (hnok pr hpr).2.1)
    have hid3 : dictRemove pairs (chars "request") = pairs :=
      dictRemove_id (fun pr hpr => (hnok pr hpr).2.2)
    have hqe : (urlencodePairs pairs).isEmpty = false := by
      cases pairs with
      | nil => exact absurd rfl hpne
      | cons pr rest => exact ne_nil_isEmpty_false urlencodePairs_ne_nil
    unfold cleanedUrlString
    rw [hred, hid1, hid2, hid3]
    show urlunparse ⟨chars "http", h, p, [], urlencodePairs pairs, []⟩ = _
    rw [urlunparse_http_form h p (urlencodePairs pairs) hne hp0, hqe]
    simp only [Bool.false_eq_true, if_false]
    rfl
  · intro hnok hpne
    have h5 : cleanedUrlString (mkHttpUrl h p (urlencodePairs pairs)) =
        mkHttpUrl h p (urlencodePairs pairs) := by
      have hid1 : dictRemove pairs (chars "version") = pairs :=
        dictRemove_id (fun pr hpr => (hnok pr hpr).1)
      have hid2 : dictRemove pairs (chars "service") = pairs :=
        dictRemove_id (fun pr hpr => (hnok pr hpr).2.1)
      have hid3 : dictRemove pairs (chars "request") = pairs :=
        dictRemove_id (fun pr hpr => (hnok pr hpr).2.2)
      have hqe : (urlencodePairs pairs).isEmpty = false := by
        cases pairs with
        | nil => exact absurd rfl hpne
        | cons pr rest => exact ne_nil_isEmpty_false urlencodePairs_ne_nil
      unfold cleanedUrlString
      rw [hred, hid1, hid2, hid3]
      show urlunparse ⟨chars "http", h, p, [], urlencodePairs pairs, []⟩ = _
      rw [urlunparse_http_form h p (urlencodePairs pairs) hne hp0, hqe]
      simp only [Bool.false_eq_true, if_false]
      rfl
    rw [h5]
    exact h5

/-- C8, counterexample to the stability part as claimed. The URL
`http://h/p?a=b%2526c` is itself a cleaned URL (cleaning changes it to
`http://h/p?a=b%26c`, the cleaned form of a parameter value `b&c`), and
cleaning that cleaned URL changes it again (the initial unquote decodes
`%26` to an ampersand, which re-parses as a parameter separator), so
cleaning an already-cleaned URL does not always yield the identical
string. -/
theorem cleaning_not_idempotent :
    cleanedUrlString (cleanedUrlString (chars "http://h/p?a=b%2526c")) ≠
      cleanedUrlString (chars "http://h/p?a=b%2526c") := by
  decide

theorem cleaned_url_params_exact_witness :
    parseQsl (get_cleaned_url_params (mkHttpUrl (chars "h") (chars "/p")
        (urlencodePairs [(chars "a", chars "b"), (chars "version", chars "1.0.0")]))).newUrl.query =
      stripReservedKeys [(chars "a", chars "b"), (chars "version", chars "1.0.0")] ∧
    (get_cleaned_url_params (mkHttpUrl (chars "h") (chars "/p")
        (urlencodePairs [(chars "a", chars "b"), (chars "version", chars "1.0.0")]))).version =
      chars "1.0.0" ∧
    cleanedUrlString (cleanedUrlString (mkHttpUrl (chars "h") (chars "/p")
        (urlencodePairs [(chars "a", chars "b")]))) =
      cleanedUrlString (mkHttpUrl (chars "h") (chars "/p")
        (urlencodePairs [(chars "a", chars "b")])) := by
  have T1 := cleaned_url_params_exact (chars "h") (chars "/p")
    [(chars "a", chars "b"), (chars "version", chars "1.0.0")] (by decide) (by decide)
    (by decide) (Or.inr (by decide))
    (by intro pr hpr; fin_cases hpr <;> refine ⟨by decide, by decide, by decide⟩)
    (by decide)
  have T2 := cleaned_url_params_exact (chars "h") (chars "/p")
    [(chars "a", chars "b")] (by decide) (by decide)
    (by decide) (Or.inr (by decide))
    (by intro pr hpr; fin_cases hpr; refine ⟨by decide, by decide, by decide⟩)
    (by decide)
  refine ⟨T1.1, ?_,
    T2.2.2.2.2.2 (by intro pr hpr; fin_cases hpr; exact ⟨by decide, by decide, by decide⟩) (by decide)⟩
  rw [T1.2.1]
  decide

theorem sta_get_bbox_obs (env : StaEnv) (fuel : Nat) (client : StaClient)
    (fs : List (Str × PyVal)) (vs : List PyVal)
    (hobs : pyLookup (chars "observedArea") fs = some (.list vs)) :
    sta_get_bbox env fuel client (.dict fs) =
      (if vs.length < 4 then .error (.invalidBBox (.list vs)) else .ok (.list vs)) := by
  unfold sta_get_bbox
  rw [pyGetItem_dict_some hobs, exceptBind_ok]
  simp only [decimal_encode]
  rw [if_pos (show (PyVal.list vs ≠ PyVal.null) from fun e => nomatch e)]
  rw [if_neg (show ¬(PyVal.list vs = PyVal.null) from fun e => nomatch e)]
  simp only [show (pure (PyVal.list vs) : Except Err PyVal) = .ok (.list vs) from rfl,
    exceptBind_ok, show pyLen (PyVal.list vs) = .ok vs.length from rfl]

theorem sta_fields_compute (env : StaEnv) (fuel : Nat) (client : StaClient)
    (fs : List (Str × PyVal)) (b0 b1 b2 b3 : PyVal) (rest : List PyVal)
    (idv dv : PyVal) (nm : Str) (kws tkws : List PyVal)
    (hobs : pyLookup (chars "observedArea") fs =
      some (.list (b0 :: b1 :: b2 :: b3 :: rest)))
    (hid : pyLookup (chars "@iot.id") fs = some idv)
    (hnm : pyLookup (chars "name") fs = some (.str nm))
    (hdv : pyLookup (chars "description") fs = some dv)
    (hkw : sta_keywords_for_resource env fuel client idv = .ok kws)
    (htr : kws.mapM pySlice100 = .ok tkws) :
    sta_get_indexed_dataset_fields env fuel client (.dict fs) =
      .ok ⟨.str nm, staHandlerName env, chars "remote", chars "remoteWorkspace",
        slugify (pyToStr idv ++ '-' :: nm.filter (fun c => c.toNat < 128)),
        .str nm, .str nm, dv, [b0, b2, b1, b3],
        (match rest with
         | [] => PyVal.str (chars "EPSG:4326")
         | r :: _ => r), tkws⟩ := by
  have hbox := sta_get_bbox_obs env fuel client fs (b0 :: b1 :: b2 :: b3 :: rest) hobs
  rw [if_neg (by simp)] at hbox
  unfold sta_get_indexed_dataset_fields
  rw [hbox, exceptBind_ok, pyGetItem_dict_some hid, exceptBind_ok,
    pyGetItem_dict_some hnm, exceptBind_ok]
  show (do
    let descv ← pyGetItem (.dict fs) (chars "description")
    let b0x ← pyIndex (.list (b0 :: b1 :: b2 :: b3 :: rest)) 0
    let b2x ← pyIndex (.list (b0 :: b1 :: b2 :: b3 :: rest)) 2
    let b1x ← pyIndex (.list (b0 :: b1 :: b2 :: b3 :: rest)) 1
    let b3x ← pyIndex (.list (b0 :: b1 :: b2 :: b3 :: rest)) 3
    let n ← pyLen (.list (b0 :: b1 :: b2 :: b3 :: rest))
    let srid ← if n > 4 then pyIndex (.list (b0 :: b1 :: b2 :: b3 :: rest)) 4
      else pure (PyVal.str (chars "EPSG:4326"))
    let kws2 ← sta_keywords_for_resource env fuel client idv
    let keywords ← kws2.mapM pySlice100
    pure (⟨.str nm, staHandlerName env, chars "remote", chars "remoteWorkspace",
      slugify (pyToStr idv ++ '-' :: nm.filter (fun c => c.toNat < 128)),
      .str nm, .str nm, descv, [b0x, b2x, b1x, b3x], srid, keywords⟩ : StaFields)) = _
  rw [pyGetItem_dict_some hdv, exceptBind_ok]
  simp only [show pyIndex (PyVal.list (b0 :: b1 :: b2 :: b3 :: rest)) 0 = .ok b0 from rfl,
    show pyIndex (PyVal.list (b0 :: b1 :: b2 :: b3 :: rest)) 2 = .ok b2 from rfl,
    show pyIndex (PyVal.list (b0 :: b1 :: b2 :: b3 :: rest)) 1 = .ok b1 from rfl,
    show pyIndex (PyVal.list (b0 :: b1 :: b2 :: b3 :: rest)) 3 = .ok b3 from rfl,
    show pyLen (PyVal.list (b0 :: b1 :: b2 :: b3 :: rest)) =
      .ok (4 + rest.length) from by simp [pyLen]; omega,
    exceptBind_ok]
  cases rest with
  | nil =>
    rw [if_neg (by simp)]
    rw [show (pure (PyVal.str (chars "EPSG:4326")) : Except Err PyVal) =
      .ok (.str (chars "EPSG:4326")) from rfl, exceptBind_ok, hkw, exceptBind_ok, htr,
      exceptBind_ok]
    rfl
  | cons r rs =>
    rw [if_pos (by simp)]
    rw [show pyIndex (PyVal.list (b0 :: b1 :: b2 :: b3 :: r :: rs)) 4 = .ok r from rfl,
      exceptBind_ok, hkw, exceptBind_ok, htr, exceptBind_ok]
    rfl

theorem sta_fields_bbox_error (env : StaEnv) (fuel : Nat) (client : StaClient)
    (fs : List (Str × PyVal)) (vs : List PyVal)
    (hobs : pyLookup (chars "observedArea") fs = some (.list vs))
    (hlen : vs.length < 4) :
    sta_get_indexed_dataset_fields env fuel client (.dict fs) =
      .error (.invalidBBox (.list vs)) := by
  have hbox := sta_get_bbox_obs env fuel client fs vs hobs
  rw [if_pos hlen] at hbox
  unfold sta_get_indexed_dataset_fields
  rw [hbox, exceptBind_error]

theorem sta_harvest_fields_error (env : StaEnv) (fuel : Nat) (gs : GeonodeService)
    (st : CatalogState) (rid : Str) (client : StaClient) (meta : PyVal) (e : Err)
    (hps : staParsedService env = .ok client)
    (hmeta : staGetDatastream env client rid = .ok meta)
    (hflds : sta_get_indexed_dataset_fields env fuel client meta = .error e) :
    sta_harvest_resource env fuel gs st rid = (.error e, st) := by
  unfold sta_harvest_resource
  rw [hps, exceptBind_ok, hmeta, exceptBind_ok, hflds]

theorem sta_harvest_first (env : StaEnv) (fuel : Nat) (gs : GeonodeService)
    (st : CatalogState) (rid : Str) (client : StaClient) (meta : PyVal)
    (flds : StaFields)
    (hps : staParsedService env = .ok client)
    (hmeta : staGetDatastream env client rid = .ok meta)
    (hflds : sta_get_indexed_dataset_fields env fuel client meta = .ok flds)
    (hex : datasetExists st flds.name flds.store flds.workspace = false) :
    sta_harvest_resource env fuel gs st rid =
      (.ok (), sta_create_dataset_service_link
        { st with datasets := st.datasets ++ [⟨flds.name, flds.store, flds.workspace,
            flds.typename, flds.keywords, !env.moderation, !env.moderation,
            gs.serviceUrl⟩] }
        st.datasets.length
        ⟨flds.name, flds.store, flds.workspace, flds.typename, flds.keywords,
          !env.moderation, !env.moderation, gs.serviceUrl⟩) := by
  unfold sta_harvest_resource
  rw [hps, exceptBind_ok, hmeta, exceptBind_ok, hflds]
  simp only [hex, Bool.false_eq_true, if_false]

theorem sta_harvest_dup (env : StaEnv) (fuel : Nat) (gs : GeonodeService)
    (st : CatalogState) (rid : Str) (client : StaClient) (meta : PyVal)
    (flds : StaFields)
    (hps : staParsedService env = .ok client)
    (hmeta : staGetDatastream env client rid = .ok meta)
    (hflds : sta_get_indexed_dataset_fields env fuel client meta = .ok flds)
    (hex : datasetExists st flds.name flds.store flds.workspace = true) :
    sta_harvest_resource env fuel gs st rid = (.error (.alreadyHarvested rid), st) := by
  unfold sta_harvest_resource
  rw [hps, exceptBind_ok, hmeta, exceptBind_ok, hflds]
  simp only [hex, if_true]

theorem sta_link_datasets (st : CatalogState) (did : Nat) (ds : DatasetRec) :
    (sta_create_dataset_service_link st did ds).datasets = st.datasets := by
  unfold sta_create_dataset_service_link
  dsimp only
  split
  · split
    · rfl
    · rfl
  · rfl

theorem sos_fields_bbox_error (env : SosEnv) (o : SosOffering)
    (hlen : o.bbox.length < 4) :
    sos_get_indexed_dataset_fields env o = .error (.invalidBBox (.list o.bbox)) := by
  unfold sos_get_indexed_dataset_fields
  rw [if_pos hlen]

theorem sos_harvest_fields_error (env : SosEnv) (gs : SosGeonodeService)
    (st : CatalogState) (rid : Str) (o : SosOffering) (e : Err)
    (hc : env.contents rid = some o)
    (hflds : sos_get_indexed_dataset_fields env o = .error e) :
    sos_harvest_resource env gs st rid = (.error e, st) := by
  unfold sos_harvest_resource sos_get_resource
  rw [hc, exceptBind_ok, hflds]

theorem sos_harvest_first (env : SosEnv) (gs : SosGeonodeService)
    (st : CatalogState) (rid : Str) (o : SosOffering) (flds : SosFields)
    (hc : env.contents rid = some o)
    (hflds : sos_get_indexed_dataset_fields env o = .ok flds)
    (hex : datasetExists st (.str flds.name) flds.store flds.workspace = false) :
    sos_harvest_resource env gs st rid =
      (.ok (), sos_create_dataset_service_link gs
        { st with datasets := st.datasets ++ [⟨.str flds.name, flds.store,
            flds.workspace, flds.typename, flds.keywords.map (fun k => .str k),
            !env.moderation, !env.moderation, gs.serviceUrl⟩] }
        st.datasets.length
        ⟨.str flds.name, flds.store, flds.workspace, flds.typename,
          flds.keywords.map (fun k => .str k), !env.moderation, !env.moderation,
          gs.serviceUrl⟩) := by
  unfold sos_harvest_resource sos_get_resource
  rw [hc, exceptBind_ok, hflds]
  simp only [hex, Bool.false_eq_true, if_false]

theorem sos_harvest_dup (env : SosEnv) (gs : SosGeonodeService)
    (st : CatalogState) (rid : Str) (o : SosOffering) (flds : SosFields)
    (hc : env.contents rid = some o)
    (hflds : sos_get_indexed_dataset_fields env o = .ok flds)
    (hex : datasetExists st (.str flds.name) flds.store flds.workspace = true) :
    sos_harvest_resource env gs st rid = (.error (.alreadyHarvested rid), st) := by
  unfold sos_harvest_resource sos_get_resource
  rw [hc, exceptBind_ok, hflds]
  simp only [hex, if_true]

theorem updateOwsAt_keys :
    ∀ (l : List DatasetRec) (did : Nat) (u : Str) (p : DatasetRec → Bool),
      (∀ d x, p { d with owsUrl := x } = p d) →
      (updateOwsAt l did u).any p = l.any p
  | [], _, _, _, _ => rfl
  | d :: rest, 0, u, p, hp => by
    simp only [updateOwsAt, List.any_cons, hp d u]
  | d :: rest, n + 1, u, p, hp => by
    simp only [updateOwsAt, List.any_cons, updateOwsAt_keys rest n u p hp]

theorem datasetExists_updateOwsAt (l : List DatasetRec) (did : Nat) (u : Str)
    (n : PyVal) (s w : Str) :
    (updateOwsAt l did u).any
        (fun d => d.name == n && d.store == s && d.workspace == w) =
      l.any (fun d => d.name == n && d.store == s && d.workspace == w) :=
  updateOwsAt_keys l did u _ (fun _ _ => rfl)

theorem sos_link_datasetExists (gs : SosGeonodeService) (st : CatalogState) (did : Nat)
    (ds : DatasetRec) (n : PyVal) (s w : Str) :
    datasetExists (sos_create_dataset_service_link gs st did ds) n s w =
      datasetExists st n s w := by
  unfold sos_create_dataset_service_link
  dsimp only
  cases hfound : sosGetCapsMethod gs with
  | none =>
    unfold datasetExists
    split
    · split
      · rfl
      · rfl
    · rfl
  | some m =>
    unfold datasetExists
    split
    · split
      · exact datasetExists_updateOwsAt st.datasets did m.url n s w
      · exact datasetExists_updateOwsAt st.datasets did m.url n s w
    · exact datasetExists_updateOwsAt st.datasets did m.url n s w

theorem datasetExists_append (l : List DatasetRec) (links : List LinkRec)
    (ds : DatasetRec) :
    datasetExists ⟨l ++ [ds], links⟩ ds.name ds.store ds.workspace = true := by
  unfold datasetExists
  simp

/-- C5. A record whose bounding box has fewer than four coordinates makes
the harvest fail with the invalid-bounding-box RuntimeError before the
existence check and before any creation: the returned catalog state is
exactly the input state, so no dataset row and no link record is written.
Stated for both handlers. -/
theorem harvest_short_bbox_no_side_effects
    (envA : StaEnv) (fuel : Nat) (gsA : GeonodeService) (stA : CatalogState)
    (ridA : Str) (client : StaClient) (fs : List (Str × PyVal)) (vs : List PyVal)
    (envB : SosEnv) (gsB : SosGeonodeService) (stB : CatalogState) (ridB : Str)
    (o : SosOffering)
    (hps : staParsedService envA = .ok client)
    (hmeta : staGetDatastream envA client ridA = .ok (.dict fs))
    (hobs : pyLookup (chars "observedArea") fs = some (.list vs))
    (hlen : vs.length < 4)
    (hc : envB.contents ridB = some o)
    (hlenB : o.bbox.length < 4) :
    sta_harvest_resource envA fuel gsA stA ridA =
        (.error (.invalidBBox (.list vs)), stA) ∧
      sos_harvest_resource envB gsB stB ridB =
        (.error (.invalidBBox (.list o.bbox)), stB) :=
  ⟨sta_harvest_fields_error envA fuel gsA stA ridA client (.dict fs) _ hps hmeta
      (sta_fields_bbox_error envA fuel client fs vs hobs hlen),
    sos_harvest_fields_error envB gsB stB ridB o _ hc
      (sos_fields_bbox_error envB o hlenB)⟩

/-- C2. Harvesting the same resource twice against the same store and
workspace: the first call passes the existence check and appends the
catalog entry; the second call finds the (name, store, workspace) match
and fails with the duplicate RuntimeError naming the resource id, leaving
the catalog unchanged. Stated for both handlers. -/
theorem harvest_duplicate_guard
    (envA : StaEnv) (fuel : Nat) (gsA : GeonodeService) (stA : CatalogState)
    (ridA : Str) (client : StaClient) (meta : PyVal) (flds : StaFields)
    (envB : SosEnv) (gsB : SosGeonodeService) (stB : CatalogState) (ridB : Str)
    (o : SosOffering) (fldsB : SosFields)
    (hps : staParsedService envA = .ok client)
    (hmeta : staGetDatastream envA client ridA = .ok meta)
    (hflds : sta_get_indexed_dataset_fields envA fuel client meta = .ok flds)
    (hex : datasetExists stA flds.name flds.store flds.workspace = false)
    (hc : envB.contents ridB = some o)
    (hfldsB : sos_get_indexed_dataset_fields envB o = .ok fldsB)
    (hexB : datasetExists stB (.str fldsB.name) fldsB.store fldsB.workspace = false) :
    (∃ st1, sta_harvest_resource envA fuel gsA stA ridA = (.ok (), st1) ∧
      st1.datasets = stA.datasets ++ [⟨flds.name, flds.store, flds.workspace,
        flds.typename, flds.keywords, !envA.moderation, !envA.moderation,
        gsA.serviceUrl⟩] ∧
      sta_harvest_resource envA fuel gsA st1 ridA =
        (.error (.alreadyHarvested ridA), st1)) ∧
    (∃ st1, sos_harvest_resource envB gsB stB ridB = (.ok (), st1) ∧
      datasetExists st1 (.str fldsB.name) fldsB.store fldsB.workspace = true ∧
      sos_harvest_resource envB gsB st1 ridB =
        (.error (.alreadyHarvested ridB), st1)) := by
  constructor
  · refine ⟨_, sta_harvest_first envA fuel gsA stA ridA client meta flds hps hmeta
      hflds hex, sta_link_datasets _ _ _, ?_⟩
    apply sta_harvest_dup envA fuel gsA _ ridA client meta flds hps hmeta hflds
    unfold datasetExists
    rw [sta_link_datasets]
    show (stA.datasets ++ [(⟨flds.name, flds.store, flds.workspace, flds.typename,
      flds.keywords, !envA.moderation, !envA.moderation, gsA.serviceUrl⟩ :
        DatasetRec)]).any _ = true
    simp
  · have hex1 : datasetExists (sos_create_dataset_service_link gsB
        { stB with datasets := stB.datasets ++ [⟨.str fldsB.name, fldsB.store,
            fldsB.workspace, fldsB.typename, fldsB.keywords.map (fun k => .str k),
            !envB.moderation, !envB.moderation, gsB.serviceUrl⟩] }
        stB.datasets.length
        ⟨.str fldsB.name, fldsB.store, fldsB.workspace, fldsB.typename,
          fldsB.keywords.map (fun k => .str k), !envB.moderation, !envB.moderation,
          gsB.serviceUrl⟩)
        (.str fldsB.name) fldsB.store fldsB.workspace = true := by
      rw [sos_link_datasetExists]
      unfold datasetExists
      simp
    exact ⟨_, sos_harvest_first envB gsB stB ridB o fldsB hc hfldsB hexB, hex1,
      sos_harvest_dup envB gsB _ ridB o fldsB hc hfldsB hex1⟩

/-- Instantiation of the short-bounding-box property on a two-coordinate
observedArea record and a two-coordinate offering over the empty catalog. -/
theorem harvest_short_bbox_no_side_effects_witness :
    sta_harvest_resource envC5 9 gsW st0 (chars "A") =
        (.error (.invalidBBox (.list [.int 1, .int 2])), st0) ∧
      sos_harvest_resource envC5s gsWs st0 (chars "O") =
        (.error (.invalidBBox (.list [.int 1, .int 2])), st0) :=
  harvest_short_bbox_no_side_effects envC5 9 gsW st0 (chars "A") clientS
    [(chars "error", .null), (chars "observedArea", .list [.int 1, .int 2])]
    [.int 1, .int 2] envC5s gsWs st0 (chars "O") oC5
    (by decide) (by decide) (by decide) (by decide) (by decide) (by decide)

/-- Instantiation of the duplicate-harvest property on a well-formed
record and offering over the empty catalog. -/
theorem harvest_duplicate_guard_witness :
    (∃ st1, sta_harvest_resource envC2 9 gsW st0 (chars "X") = (.ok (), st1) ∧
      st1.datasets = st0.datasets ++ [⟨fldsC2.name, fldsC2.store, fldsC2.workspace,
        fldsC2.typename, fldsC2.keywords, !envC2.moderation, !envC2.moderation,
        gsW.serviceUrl⟩] ∧
      sta_harvest_resource envC2 9 gsW st1 (chars "X") =
        (.error (.alreadyHarvested (chars "X")), st1)) ∧
    (∃ st1, sos_harvest_resource envC2s gsWs st0 (chars "X") = (.ok (), st1) ∧
      datasetExists st1 (.str fldsC2s.name) fldsC2s.store fldsC2s.workspace = true ∧
      sos_harvest_resource envC2s gsWs st1 (chars "X") =
        (.error (.alreadyHarvested (chars "X")), st1)) :=
  harvest_duplicate_guard envC2 9 gsW st0 (chars "X") clientS dC2 fldsC2
    envC2s gsWs st0 (chars "X") oC2 fldsC2s
    (by decide) (by decide) (by decide) (by decide) (by decide) (by decide)
    (by decide)

theorem sos_fields_compute (env : SosEnv) (o : SosOffering) (c0 c1 c2 c3 : PyVal)
    (restB : List PyVal) (hbox : o.bbox = c0 :: c1 :: c2 :: c3 :: restB) :
    sos_get_indexed_dataset_fields env o =
      .ok ⟨o.id, sosHandlerName env, chars "remote", chars "remoteWorkspace",
        slugify (o.id ++ '-' :: o.name.filter (fun c => c.toNat < 128)),
        o.id, o.name, o.description, [c0, c2, c1, c3],
        (match o.bbox_srs with
         | some s => PyVal.str s
         | none => PyVal.str (chars "EPSG:4326")),
        (sos_keywords_for_resource o).map (fun k => k.take 100),
        o.begin_position, o.end_position⟩ := by
  unfold sos_get_indexed_dataset_fields
  rw [hbox, if_neg (by simp)]
  rw [show pyIndex (.list (c0 :: c1 :: c2 :: c3 :: restB)) 0 = .ok c0 from rfl,
    exceptBind_ok,
    show pyIndex (.list (c0 :: c1 :: c2 :: c3 :: restB)) 2 = .ok c2 from rfl,
    exceptBind_ok,
    show pyIndex (.list (c0 :: c1 :: c2 :: c3 :: restB)) 1 = .ok c1 from rfl,
    exceptBind_ok,
    show pyIndex (.list (c0 :: c1 :: c2 :: c3 :: restB)) 3 = .ok c3 from rfl,
    exceptBind_ok]
  rfl

/-- C3. Whenever the resolved bounding box of a record starts with the
four coordinates (minx, miny, maxx, maxy), both normalizers store the
coordinate list handed to the polygon builder in the reordered form
(minx, maxx, miny, maxy): positions 0, 2, 1, 3 of the resolved box, for
every input order of the values. -/
theorem bbox_reorder
    (env : StaEnv) (fuel : Nat) (client : StaClient) (fs : List (Str × PyVal))
    (b0 b1 b2 b3 idv dv : PyVal) (rest : List PyVal) (nm : Str)
    (kws tkws : List PyVal)
    (envB : SosEnv) (o : SosOffering) (c0 c1 c2 c3 : PyVal) (restB : List PyVal)
    (hobs : pyLookup (chars "observedArea") fs =
      some (.list (b0 :: b1 :: b2 :: b3 :: rest)))
    (hid : pyLookup (chars "@iot.id") fs = some idv)
    (hnm : pyLookup (chars "name") fs = some (.str nm))
    (hdv : pyLookup (chars "description") fs = some dv)
    (hkw : sta_keywords_for_resource env fuel client idv = .ok kws)
    (htr : kws.mapM pySlice100 = .ok tkws)
    (hbox : o.bbox = c0 :: c1 :: c2 :: c3 :: restB) :
    (∃ flds : StaFields,
      sta_get_indexed_dataset_fields env fuel client (.dict fs) = .ok flds ∧
        flds.fromXy = [b0, b2, b1, b3]) ∧
    (∃ flds : SosFields, sos_get_indexed_dataset_fields envB o = .ok flds ∧
        flds.fromXy = [c0, c2, c1, c3]) :=
  ⟨⟨_, sta_fields_compute env fuel client fs b0 b1 b2 b3 rest idv dv nm kws tkws
      hobs hid hnm hdv hkw htr, rfl⟩,
    ⟨_, sos_fields_compute envB o c0 c1 c2 c3 restB hbox, rfl⟩⟩

/-- Instantiation of the reorder property at the box (1, 2, 3, 4), which
both normalizers store as (1, 3, 2, 4). -/
theorem bbox_reorder_witness :
    (∃ flds : StaFields,
      sta_get_indexed_dataset_fields envC2 9 clientS dC2 = .ok flds ∧
        flds.fromXy = [.int 1, .int 3, .int 2, .int 4]) ∧
    (∃ flds : SosFields, sos_get_indexed_dataset_fields envC2s oC2 = .ok flds ∧
        flds.fromXy = [.int 1, .int 3, .int 2, .int 4]) :=
  bbox_reorder envC2 9 clientS
    [(chars "error", .null), (chars "@iot.id", .str (chars "X")),
      (chars "name", .str (chars "N")), (chars "description", .str (chars "D")),
      (chars "observedArea", .list [.int 1, .int 2, .int 3, .int 4]),
      (chars "value", .list [])]
    (.int 1) (.int 2) (.int 3) (.int 4) (.str (chars "X")) (.str (chars "D"))
    [] (chars "N") [] [] envC2s oC2 (.int 1) (.int 2) (.int 3) (.int 4) []
    (by decide) (by decide) (by decide) (by decide) (by decide) (by decide)
    (by decide)

theorem pyMinFold_int (l : List Int) : ∀ (a : Int),
    pyMinFold (.int a) (l.map PyVal.int) = .ok (.int (l.foldl min a)) := by
  induction l with
  | nil => intro a; rfl
  | cons x xs ih =>
    intro a
    show (do
      let lt ← pyLt (PyVal.int x) (PyVal.int a)
      pyMinFold (if lt then PyVal.int x else PyVal.int a)
        (xs.map PyVal.int) : Except Err PyVal) =
      .ok (.int (xs.foldl min (min a x)))
    rw [show pyLt (PyVal.int x) (PyVal.int a) = .ok (decide (x < a)) from rfl,
      exceptBind_ok]
    by_cases hx : x < a
    · rw [if_pos (by simpa using hx), ih x,
        show min a x = x from min_eq_right hx.le]
    · rw [if_neg (by simpa using hx), ih a,
        show min a x = a from min_eq_left (le_of_not_lt hx)]

theorem pyMaxFold_int (l : List Int) : ∀ (a : Int),
    pyMaxFold (.int a) (l.map PyVal.int) = .ok (.int (l.foldl max a)) := by
  induction l with
  | nil => intro a; rfl
  | cons x xs ih =>
    intro a
    show (do
      let gt ← pyLt (PyVal.int a) (PyVal.int x)
      pyMaxFold (if gt then PyVal.int x else PyVal.int a)
        (xs.map PyVal.int) : Except Err PyVal) =
      .ok (.int (xs.foldl max (max a x)))
    rw [show pyLt (PyVal.int a) (PyVal.int x) = .ok (decide (a < x)) from rfl,
      exceptBind_ok]
    by_cases hx : a < x
    · rw [if_pos (by simpa using hx), ih x,
        show max a x = x from max_eq_right hx.le]
    · rw [if_neg (by simpa using hx), ih a,
        show max a x = a from max_eq_left (le_of_not_lt hx)]

theorem sta_get_bbox_null (env : StaEnv) (fuel : Nat) (client : StaClient)
    (gs : List (Str × PyVal)) (idv features : PyVal) (fl : List PyVal)
    (pts : List (PyVal × PyVal)) (minx maxx miny maxy : PyVal)
    (hnull : pyLookup (chars "observedArea") gs = some .null)
    (hid : pyLookup (chars "@iot.id") gs = some idv)
    (hfeat : staGetFeaturesForDatastream env fuel client idv = .ok features)
    (hiter : iterObj features = .ok fl)
    (hpts : fl.mapM sta_feature_point = .ok pts)
    (hminx : pyMinList (pts.map Prod.fst) = .ok minx)
    (hmaxx : pyMaxList (pts.map Prod.fst) = .ok maxx)
    (hminy : pyMinList (pts.map Prod.snd) = .ok miny)
    (hmaxy : pyMaxList (pts.map Prod.snd) = .ok maxy) :
    sta_get_bbox env fuel client (.dict gs) =
      .ok (.list [minx, maxx, miny, maxy]) := by
  unfold sta_get_bbox
  rw [pyGetItem_dict_some hnull, exceptBind_ok]
  rw [if_neg (show ¬(PyVal.null ≠ PyVal.null) from fun h => h rfl)]
  rw [if_pos rfl]
  rw [pyGetItem_dict_some hid, exceptBind_ok, hfeat, exceptBind_ok, hiter,
    exceptBind_ok, hpts, exceptBind_ok, hminx, exceptBind_ok, hmaxx, exceptBind_ok,
    hminy, exceptBind_ok, hmaxy, exceptBind_ok]
  rw [show (pure (PyVal.list [minx, maxx, miny, maxy]) : Except Err PyVal) =
    .ok (.list [minx, maxx, miny, maxy]) from rfl, exceptBind_ok]
  show (do
    let n ← pyLen (PyVal.list [minx, maxx, miny, maxy])
    if n < 4 then Except.error (Err.invalidBBox (.list [minx, maxx, miny, maxy]))
    else Except.ok (.list [minx, maxx, miny, maxy]) : Except Err PyVal) = _
  rw [show pyLen (PyVal.list [minx, maxx, miny, maxy]) = .ok 4 from rfl,
    exceptBind_ok]
  rw [if_neg (by decide)]

theorem sta_get_bbox_absent (env : StaEnv) (fuel : Nat) (client : StaClient)
    (hs : List (Str × PyVal))
    (habs : pyLookup (chars "observedArea") hs = none) :
    sta_get_bbox env fuel client (.dict hs) =
      .error (.keyError (chars "observedArea")) := by
  unfold sta_get_bbox
  rw [pyGetItem_dict_none habs, exceptBind_error]

/-- C4. Corrected observedArea rule: a record carrying a non-null
observedArea uses that value as the box (failing when it has fewer than
four entries); a record carrying an explicitly null observedArea derives
the box from the feature points as (min x, max x, min y, max y), and on
integer coordinates the min and max folds compute the true running
minimum and maximum; but a record with the observedArea key ABSENT does
not fall back to the derived box: the lookup raises KeyError. -/
theorem observed_area_preference_and_fallback
    (env : StaEnv) (fuel : Nat) (client : StaClient)
    (fs gs hs : List (Str × PyVal)) (vs : List PyVal) (idv features : PyVal)
    (fl : List PyVal) (pts : List (PyVal × PyVal)) (minx maxx miny maxy : PyVal)
    (hobs : pyLookup (chars "observedArea") fs = some (.list vs))
    (hnull : pyLookup (chars "observedArea") gs = some .null)
    (hid : pyLookup (chars "@iot.id") gs = some idv)
    (hfeat : staGetFeaturesForDatastream env fuel client idv = .ok features)
    (hiter : iterObj features = .ok fl)
    (hpts : fl.mapM sta_feature_point = .ok pts)
    (hminx : pyMinList (pts.map Prod.fst) = .ok minx)
    (hmaxx : pyMaxList (pts.map Prod.fst) = .ok maxx)
    (hminy : pyMinList (pts.map Prod.snd) = .ok miny)
    (hmaxy : pyMaxList (pts.map Prod.snd) = .ok maxy)
    (habs : pyLookup (chars "observedArea") hs = none) :
    sta_get_bbox env fuel client (.dict fs) =
        (if vs.length < 4 then .error (.invalidBBox (.list vs))
         else .ok (.list vs)) ∧
      sta_get_bbox env fuel client (.dict gs) =
        .ok (.list [minx, maxx, miny, maxy]) ∧
      sta_get_bbox env fuel client (.dict hs) =
        .error (.keyError (chars "observedArea")) ∧
      (∀ (a : Int) (l : List Int),
        pyMinList ((a :: l).map PyVal.int) = .ok (.int (l.foldl min a)) ∧
          pyMaxList ((a :: l).map PyVal.int) = .ok (.int (l.foldl max a))) :=
  ⟨sta_get_bbox_obs env fuel client fs vs hobs,
    sta_get_bbox_null env fuel client gs idv features fl pts minx maxx miny maxy
      hnull hid hfeat hiter hpts hminx hmaxx hminy hmaxy,
    sta_get_bbox_absent env fuel client hs habs,
    fun a l => ⟨pyMinFold_int l a, pyMaxFold_int l a⟩⟩

/-- Instantiation of the corrected observedArea rule on a four-entry box,
a null box over two features with points (1, 3) and (2, 4), and a record
without the key. -/
theorem observed_area_preference_and_fallback_witness :
    sta_get_bbox envC4 9 clientS
        (.dict [(chars "observedArea",
          .list [.int 1, .int 2, .int 3, .int 4])]) =
        (if ([PyVal.int 1, .int 2, .int 3, .int 4]).length < 4 then
          .error (.invalidBBox (.list [.int 1, .int 2, .int 3, .int 4]))
         else .ok (.list [.int 1, .int 2, .int 3, .int 4])) ∧
      sta_get_bbox envC4 9 clientS (.dict gsC4) =
        .ok (.list [.int 1, .int 2, .int 3, .int 4]) ∧
      sta_get_bbox envC4 9 clientS (.dict hsC4) =
        .error (.keyError (chars "observedArea")) ∧
      (∀ (a : Int) (l : List Int),
        pyMinList ((a :: l).map PyVal.int) = .ok (.int (l.foldl min a)) ∧
          pyMaxList ((a :: l).map PyVal.int) = .ok (.int (l.foldl max a))) :=
  observed_area_preference_and_fallback envC4 9 clientS
    [(chars "observedArea", .list [.int 1, .int 2, .int 3, .int 4])] gsC4 hsC4
    [.int 1, .int 2, .int 3, .int 4] (.str (chars "X")) (.list [fC4a, fC4b])
    [fC4a, fC4b] [(.int 1, .int 3), (.int 2, .int 4)]
    (.int 1) (.int 2) (.int 3) (.int 4)
    (by decide) (by decide) (by decide) (by decide) (by decide) (by decide)
    (by decide) (by decide) (by decide) (by decide) (by decide)

/-- The divergence behind the correction: a record missing the
observedArea key raises KeyError in bbox resolution, although the linked
features of the datastream would yield the well-formed derived box
(1, 2, 3, 4), which the fallback described by the specification would
have produced. -/
theorem observed_area_absent_keyerror :
    sta_get_bbox envC4 9 clientS (.dict hsC4) =
        .error (.keyError (chars "observedArea")) ∧
      (do
        let features ← staGetFeaturesForDatastream envC4 9 clientS
          (.str (chars "X"))
        let fl ← iterObj features
        let pts ← fl.mapM sta_feature_point
        let minx ← pyMinList (pts.map Prod.fst)
        let maxx ← pyMaxList (pts.map Prod.fst)
        let miny ← pyMinList (pts.map Prod.snd)
        let maxy ← pyMaxList (pts.map Prod.snd)
        pure (PyVal.list [minx, maxx, miny, maxy]) : Except Err PyVal) =
        .ok (.list [.int 1, .int 2, .int 3, .int 4]) := by
  refine ⟨?_, by decide⟩
  decide

theorem mem_setUpdate_iff {α : Type} [DecidableEq α] (xs : List α) :
    ∀ (s : List α) (a : α), a ∈ setUpdate s xs ↔ a ∈ s ∨ a ∈ xs := by
  induction xs with
  | nil => intro s a; simp [setUpdate]
  | cons x xs ih =>
    intro s a
    show a ∈ setUpdate (if x ∈ s then s else s ++ [x]) xs ↔ _
    rw [ih]
    by_cases hx : x ∈ s
    · rw [if_pos hx]
      constructor
      · rintro (h | h)
        · exact Or.inl h
        · exact Or.inr (List.mem_cons_of_mem _ h)
      · rintro (h | h)
        · exact Or.inl h
        · rcases List.mem_cons.mp h with rfl | h
          · exact Or.inl hx
          · exact Or.inr h
    · rw [if_neg hx]
      simp only [List.mem_append, List.mem_singleton, List.mem_cons]
      tauto

theorem nodup_setUpdate {α : Type} [DecidableEq α] (xs : List α) :
    ∀ (s : List α), s.Nodup → (setUpdate s xs).Nodup := by
  induction xs with
  | nil => intro s h; exact h
  | cons x xs ih =>
    intro s h
    show (setUpdate (if x ∈ s then s else s ++ [x]) xs).Nodup
    by_cases hx : x ∈ s
    · rw [if_pos hx]; exact ih s h
    · rw [if_neg hx]
      refine ih _ ?_
      rw [List.nodup_append]
      exact ⟨h, List.nodup_singleton x, by simpa using hx⟩

theorem mapM_ok_get {α β : Type} (f : α → Except Err β) :
    ∀ (xs : List α) (ys : List β), xs.mapM f = .ok ys →
      ys.length = xs.length ∧
        ∀ i (h : i < xs.length) (h2 : i < ys.length),
          f (xs.get ⟨i, h⟩) = .ok (ys.get ⟨i, h2⟩) := by
  intro xs
  induction xs with
  | nil =>
    intro ys h
    have he : ([] : List β) = ys := Except.ok.inj h
    subst he
    exact ⟨rfl, fun i h _ => absurd h (by simp)⟩
  | cons x xs ih =>
    intro ys h
    rw [List.mapM_cons] at h
    cases hfx : f x with
    | error e =>
      rw [hfx, exceptBind_error] at h
      exact Except.noConfusion h
    | ok y =>
      simp only [hfx, exceptBind_ok] at h
      cases hxs : List.mapM f xs with
      | error e =>
        rw [hxs, exceptBind_error] at h
        exact Except.noConfusion h
      | ok ys2 =>
        simp only [hxs, exceptBind_ok] at h
        have he : y :: ys2 = ys := Except.ok.inj h
        subst he
        obtain ⟨hl, hp⟩ := ih ys2 hxs
        refine ⟨by simp [hl], ?_⟩
        intro i hi h2
        cases i with
        | zero => exact hfx
        | succ j => exact hp j (Nat.lt_of_succ_lt_succ hi) (Nat.lt_of_succ_lt_succ h2)

/-- C9. The stored keyword list of a harvested resource is built by first
taking the set union of the keyword-like name lists (four element lists
for STA, observed properties then procedures then features of interest
for SOS) and only then truncating each entry to its first 100 characters:
the union is duplicate-free, membership in it is exactly membership in
one of the source lists, and the truncation step maps the union
entrywise, so every keyword distinct in the full-length union contributes
its own (possibly equal) truncated entry. -/
theorem keywords_union_then_truncate
    (env : StaEnv) (fuel : Nat) (client : StaClient) (fs : List (Str × PyVal))
    (b0 b1 b2 b3 idv dv : PyVal) (rest : List PyVal) (nm : Str)
    (l1 l2 l3 l4 tkws : List PyVal)
    (envB : SosEnv) (o : SosOffering) (c0 c1 c2 c3 : PyVal) (restB : List PyVal)
    (hobs : pyLookup (chars "observedArea") fs =
      some (.list (b0 :: b1 :: b2 :: b3 :: rest)))
    (hid : pyLookup (chars "@iot.id") fs = some idv)
    (hnm : pyLookup (chars "name") fs = some (.str nm))
    (hdv : pyLookup (chars "description") fs = some dv)
    (h1 : staGetObservedPropertyNamesForDatastream env fuel client idv = .ok l1)
    (h2 : staGetFeatureOfInterestNamesForDatastream env fuel client idv = .ok l2)
    (h3 : staGetSensorNamesForDatastream env fuel client idv = .ok l3)
    (h4 : staGetThingNamesForDatastream env fuel client idv = .ok l4)
    (htr : (setUpdate (setUpdate (setUpdate (setUpdate [] l1) l2) l3) l4).mapM
      pySlice100 = .ok tkws)
    (hbox : o.bbox = c0 :: c1 :: c2 :: c3 :: restB) :
    (∃ flds : StaFields,
      sta_get_indexed_dataset_fields env fuel client (.dict fs) = .ok flds ∧
      flds.keywords = tkws ∧
      (setUpdate (setUpdate (setUpdate (setUpdate [] l1) l2) l3) l4).Nodup ∧
      (∀ v, v ∈ setUpdate (setUpdate (setUpdate (setUpdate [] l1) l2) l3) l4 ↔
        v ∈ l1 ∨ v ∈ l2 ∨ v ∈ l3 ∨ v ∈ l4) ∧
      tkws.length =
        (setUpdate (setUpdate (setUpdate (setUpdate [] l1) l2) l3) l4).length ∧
      (∀ i (h : i < (setUpdate (setUpdate (setUpdate (setUpdate [] l1) l2) l3)
            l4).length) (h2 : i < tkws.length),
        pySlice100 ((setUpdate (setUpdate (setUpdate (setUpdate [] l1) l2) l3)
          l4).get ⟨i, h⟩) = .ok (tkws.get ⟨i, h2⟩))) ∧
    (∃ flds : SosFields, sos_get_indexed_dataset_fields envB o = .ok flds ∧
      flds.keywords = (sos_keywords_for_resource o).map (fun k => k.take 100) ∧
      (sos_keywords_for_resource o).Nodup ∧
      (∀ k, k ∈ sos_keywords_for_resource o ↔
        k ∈ o.observed_properties ∨ k ∈ o.procedures ∨
          k ∈ o.features_of_interest) ∧
      flds.keywords.length = (sos_keywords_for_resource o).length) := by
  have hkw : sta_keywords_for_resource env fuel client idv =
      .ok (setUpdate (setUpdate (setUpdate (setUpdate [] l1) l2) l3) l4) := by
    unfold sta_keywords_for_resource
    rw [h1, exceptBind_ok, h2, exceptBind_ok, h3, exceptBind_ok, h4, exceptBind_ok]
    rfl
  obtain ⟨hl, hp⟩ := mapM_ok_get pySlice100 _ _ htr
  constructor
  · refine ⟨_, sta_fields_compute env fuel client fs b0 b1 b2 b3 rest idv dv nm _
      tkws hobs hid hnm hdv hkw htr, rfl, ?_, ?_, hl, hp⟩
    · exact nodup_setUpdate l4 _ (nodup_setUpdate l3 _ (nodup_setUpdate l2 _
        (nodup_setUpdate l1 _ List.nodup_nil)))
    · intro v
      rw [mem_setUpdate_iff l4, mem_setUpdate_iff l3, mem_setUpdate_iff l2,
        mem_setUpdate_iff l1]
      simp [or_assoc]
  · refine ⟨_, sos_fields_compute envB o c0 c1 c2 c3 restB hbox, rfl, ?_, ?_,
      by simp⟩
    · exact nodup_setUpdate _ _ (nodup_setUpdate _ _ (nodup_setUpdate _ _
        List.nodup_nil))
    · intro k
      show k ∈ setUpdate (setUpdate (setUpdate [] o.observed_properties)
        o.procedures) o.features_of_interest ↔ _
      rw [mem_setUpdate_iff, mem_setUpdate_iff, mem_setUpdate_iff]
      simp [or_assoc]

/-- Instantiation of the union-then-truncate property on a record whose
four name lists coincide (so the union deduplicates them to two entries)
and an offering whose keyword sources overlap in the entry temp. -/
theorem keywords_union_then_truncate_witness :
    (∃ flds : StaFields,
      sta_get_indexed_dataset_fields envC9 9 clientS dC9 = .ok flds ∧
      flds.keywords = kwAB ∧
      kwAB.Nodup ∧
      (∀ v, v ∈ kwAB ↔ v ∈ kwAB ∨ v ∈ kwAB ∨ v ∈ kwAB ∨ v ∈ kwAB) ∧
      kwAB.length = kwAB.length ∧
      (∀ i (h : i < kwAB.length) (h2 : i < kwAB.length),
        pySlice100 (kwAB.get ⟨i, h⟩) = .ok (kwAB.get ⟨i, h2⟩))) ∧
    (∃ flds : SosFields, sos_get_indexed_dataset_fields envC9s oC9 = .ok flds ∧
      flds.keywords = (sos_keywords_for_resource oC9).map (fun k => k.take 100) ∧
      (sos_keywords_for_resource oC9).Nodup ∧
      (∀ k, k ∈ sos_keywords_for_resource oC9 ↔
        k ∈ oC9.observed_properties ∨ k ∈ oC9.procedures ∨
          k ∈ oC9.features_of_interest) ∧
      flds.keywords.length = (sos_keywords_for_resource oC9).length) :=
  keywords_union_then_truncate envC9 9 clientS
    [(chars "error", .null), (chars "@iot.id", .str (chars "X")),
      (chars "name", .str (chars "N")), (chars "description", .str (chars "D")),
      (chars "observedArea", .list [.int 1, .int 2, .int 3, .int 4]),
      (chars "value", .list [.dict [(chars "name", .str (chars "alpha"))],
        .dict [(chars "name", .str (chars "beta"))]])]
    (.int 1) (.int 2) (.int 3) (.int 4) (.str (chars "X")) (.str (chars "D"))
    [] (chars "N") kwAB kwAB kwAB kwAB kwAB envC9s oC9
    (.int 1) (.int 2) (.int 3) (.int 4) []
    (by decide) (by decide) (by decide) (by decide) (by decide) (by decide)
    (by decide) (by decide) (by decide) (by decide)

end GeonodeSvc